import Mathlib

/-!
Verification development for the multi-vector detection and arbitration engine
of the IDS repository.

The detectors of src/backend/attack_detectors.py and the detector-override and
probability-distribution logic of src/backend/prediction_service.py are embedded
shallowly:

* machine floats are modelled by rational numbers (exact arithmetic);
* timestamps are rationals counting seconds, passed explicitly where the
  source calls datetime.now();
* Python sets are modelled as duplicate-free lists (insertion adds an element
  only when absent), Python dicts keyed by strings as association lists in
  insertion order;
* fallible Python fragments whose exceptions are caught by the enclosing
  try/except of analyze_packet are modelled with Except;
* division by zero in ℚ yields 0; every place where this matters is noted next
  to the definition.
-/

namespace IDS

/-- Python sorted(...) for a list of naturals: insertion of one element into a
sorted list. -/
def insertSorted (x : Nat) : List Nat → List Nat
  | [] => [x]
  | y :: ys => if x ≤ y then x :: y :: ys else y :: insertSorted x ys

/-- Python sorted(...) for a list of naturals (insertion sort, ascending). -/
def sortedPorts (l : List Nat) : List Nat := l.foldr insertSorted []

/-- Python set.add for a set of naturals modelled as a duplicate-free list. -/
def setAdd (l : List Nat) (x : Nat) : List Nat := if x ∈ l then l else x :: l

/-- Python set.add for a set of strings modelled as a duplicate-free list. -/
def setAddStr (l : List String) (x : String) : List String := if x ∈ l then l else x :: l

/-- Lookup in a Python dict modelled as an association list. -/
def mapFind {α : Type} : List (String × α) → String → Option α
  | [], _ => none
  | (k', v') :: rest, k => if k' = k then some v' else mapFind rest k

/-- Assignment d[k] = v in a Python dict modelled as an association list:
replaces the binding in place, or appends a new binding (insertion order). -/
def mapSet {α : Type} : List (String × α) → String → α → List (String × α)
  | [], k, v => [(k, v)]
  | (k', v') :: rest, k, v => if k' = k then (k, v) :: rest else (k', v') :: mapSet rest k v

/-! ## PortScanDetector (attack_detectors.py lines 37-178), window 60 s -/

/-- Per-source tracking state of PortScanDetector (the defaultdict value at
lines 42-48). -/
structure PortScanData where
  ports : List Nat
  timestamps : List ℚ
  unique_dest_ips : List String
  total_packets : Nat
  sequential_ports : List (Nat × ℚ)

/-- The defaultdict initial value for a fresh source. -/
def PortScanData.empty : PortScanData := ⟨[], [], [], 0, []⟩

def psWindow : ℚ := 60

/-- Port validation shared by PortScanDetector.add_packet and
BruteForceDetector.add_packet: an int in [1, 65535], otherwise None. -/
def validPort (p : Option Int) : Option Nat :=
  match p with
  | none => none
  | some v => if 1 ≤ v ∧ v ≤ 65535 then some v.toNat else none

/-- Body of PortScanDetector.add_packet acting on one source's data
(lines 67-94): prune timestamps, append now, record destination and port.
The protocol argument of the source is never read and is omitted. -/
def psAddData (d : PortScanData) (now : ℚ) (dest_ip : String) (dest_port : Option Nat) :
    PortScanData :=
  let cutoff := now - psWindow
  let ts := (d.timestamps.filter (fun t => cutoff < t)) ++ [now]
  let dips := if dest_ip ≠ "" then setAddStr d.unique_dest_ips dest_ip else d.unique_dest_ips
  let tp := d.total_packets + 1
  match dest_port with
  | none => ⟨d.ports, ts, dips, tp, d.sequential_ports⟩
  | some p =>
      ⟨setAdd d.ports p, ts, dips, tp,
       (d.sequential_ports ++ [(p, now)]).filter (fun q => cutoff < q.2)⟩

/-- PortScanDetector.add_packet (lines 50-96) including its input validation;
empty source or destination strings are rejected without updating. -/
def ps_add_packet (m : List (String × PortScanData)) (now : ℚ)
    (source_ip dest_ip : String) (dest_port : Option Int) :
    List (String × PortScanData) :=
  if source_ip = "" ∨ dest_ip = "" then m
  else
    let d := (mapFind m source_ip).getD PortScanData.empty
    mapSet m source_ip (psAddData d now dest_ip (validPort dest_port))

/-- The feature dictionary returned by PortScanDetector.get_features. -/
structure PSFeatures where
  unique_ports : Nat
  port_scan_rate : ℚ
  unique_dest_ips : Nat
  packets_per_second : ℚ
  is_port_scan : Bool
  port_scan_score : ℚ
  sequential_score : ℚ

/-- PortScanDetector._default_features (lines 169-178). -/
def psDefaultFeatures : PSFeatures := ⟨0, 0, 0, 0, false, 0, 0⟩

/-- The fraction of adjacent sorted ports differing by exactly 1, as computed
by the loop of _check_sequential_ports (lines 158-167), without the
length guard. -/
def seqFractionCore (pts : List (Nat × ℚ)) : ℚ :=
  let ports := sortedPorts (pts.map Prod.fst)
  let pairs := ports.zip ports.tail
  let seqCount := (pairs.filter (fun ab => ab.2 = ab.1 + 1)).length
  let total := ports.length - 1
  if 0 < total then (seqCount : ℚ) / ((max total 1 : Nat) : ℚ) else 0

/-- PortScanDetector._check_sequential_ports (lines 153-167): returns 0 for
fewer than 5 recorded (port, timestamp) pairs. -/
def check_sequential_ports (pts : List (Nat × ℚ)) : ℚ :=
  if pts.length < 5 then 0 else seqFractionCore pts

/-- The three-way threshold cascade of get_features (lines 128-136), before the
sequential bonus: returns (port_scan_score, is_port_scan). -/
def psBase (unique_ports : Nat) (pps : ℚ) : ℚ × Bool :=
  if 10 ≤ unique_ports ∧ 5 < pps then
    let s := min 1 (((unique_ports : ℚ) / 100) * (pps / 50))
    (s, decide ((3 : ℚ)/10 < s))
  else if 5 ≤ unique_ports ∧ 10 < pps then
    let s := min 1 (((unique_ports : ℚ) / 50) * (pps / 100))
    (s, decide ((1 : ℚ)/5 < s))
  else if 20 ≤ unique_ports then
    let s := min 1 ((unique_ports : ℚ) / 200)
    (s, decide ((2 : ℚ)/5 < s))
  else (0, false)

/-- Threshold cascade followed by the sequential-port bonus (lines 139-141):
when the sequential score exceeds 0.5, 0.2 is added (capped at 1) and the
active flag is forced to true. -/
def psScoreActive (unique_ports : Nat) (pps seq : ℚ) : ℚ × Bool :=
  let b := psBase unique_ports pps
  if 1/2 < seq then (min 1 (b.1 + 1/5), true) else b

/-- Body of PortScanDetector.get_features on one source's data (lines 104-151).
time_span is (last - first).total_seconds() or 1: the divisor is replaced by 1
only when the span is exactly zero. -/
def ps_features_data (d : PortScanData) (now : ℚ) : PSFeatures :=
  let cutoff := now - psWindow
  let recent := d.timestamps.filter (fun t => cutoff < t)
  if recent = [] then psDefaultFeatures
  else
    let unique_ports := d.ports.length
    let udi := d.unique_dest_ips.length
    let total_packets := recent.length
    let span0 := recent.getLastD 0 - recent.headD 0
    let time_span := if span0 = 0 then 1 else span0
    let pps := (total_packets : ℚ) / time_span
    let psr := (unique_ports : ℚ) / time_span
    let seq := check_sequential_ports d.sequential_ports
    let sa := psScoreActive unique_ports pps seq
    ⟨unique_ports, psr, udi, pps, sa.2, sa.1, seq⟩

/-- PortScanDetector.get_features (lines 98-151): default features for a source
that was never tracked. -/
def ps_get_features (m : List (String × PortScanData)) (source_ip : String) (now : ℚ) :
    PSFeatures :=
  match mapFind m source_ip with
  | none => psDefaultFeatures
  | some d => ps_features_data d now

/-! ## DoSDetector (lines 181-307), window 60 s -/

/-- Per-source tracking state of DoSDetector (lines 186-192). -/
structure DoSData where
  packets : List (ℚ × Nat)
  bytes : List (ℚ × Nat)
  dest_ips : List String
  syn_packets : Nat
  failed_connections : Nat

def DoSData.empty : DoSData := ⟨[], [], [], 0, 0⟩

def dosWindow : ℚ := 60

/-- Body of DoSDetector.add_packet on one source's data (lines 210-236). -/
def dosAddData (d : DoSData) (now : ℚ) (dest_ip : String) (packet_size : Nat)
    (is_syn connection_failed : Bool) : DoSData :=
  let cutoff := now - dosWindow
  ⟨(d.packets.filter (fun q => cutoff < q.1)) ++ [(now, 1)],
   (d.bytes.filter (fun q => cutoff < q.1)) ++ [(now, packet_size)],
   if dest_ip ≠ "" then setAddStr d.dest_ips dest_ip else d.dest_ips,
   if is_syn then d.syn_packets + 1 else d.syn_packets,
   if connection_failed then d.failed_connections + 1 else d.failed_connections⟩

/-- DoSDetector.add_packet (lines 194-238) with its input validation: the size
is coerced to an int clamped into [0, 65535] (0 on parse failure upstream). -/
def dos_add_packet (m : List (String × DoSData)) (now : ℚ)
    (source_ip dest_ip : String) (packet_size : Int)
    (is_syn connection_failed : Bool) : List (String × DoSData) :=
  if source_ip = "" ∨ dest_ip = "" then m
  else
    let sz := (max 0 (min packet_size 65535)).toNat
    let d := (mapFind m source_ip).getD DoSData.empty
    mapSet m source_ip (dosAddData d now dest_ip sz is_syn connection_failed)

/-- The feature dictionary returned by DoSDetector.get_features. -/
structure DoSFeatures where
  packets_per_second : ℚ
  bytes_per_second : ℚ
  packet_count : Nat
  unique_dest_ips : Nat
  syn_packets : Nat
  is_dos : Bool
  dos_score : ℚ
  avg_packet_size : ℚ

def dosDefaultFeatures : DoSFeatures := ⟨0, 0, 0, 0, 0, false, 0, 0⟩

/-- The three-way threshold cascade of DoSDetector.get_features
(lines 269-279), before the small-packet bonus.  In the targeted-flood branch
the source divides by the number of distinct destinations; a zero count would
raise in Python (caught upstream, yielding default zero features), and here
yields a zero score via division by zero in ℚ — the same zero score and
inactive flag, and a state with live packets but no destination is not
reachable through add_packet anyway. -/
def dosBase (pps : ℚ) (ndest syn_packets : Nat) : ℚ × Bool :=
  if 100 < pps then
    let s := min 1 (pps / 1000)
    (s, decide ((1 : ℚ)/2 < s))
  else if 50 < pps ∧ ndest ≤ 3 then
    let s := min 1 ((pps / 200) * (3 / (ndest : ℚ)))
    (s, decide ((2 : ℚ)/5 < s))
  else if 50 < syn_packets ∧ 20 < pps then
    let s := min 1 (((syn_packets : ℚ) / 100) * (pps / 50))
    (s, decide ((1 : ℚ)/2 < s))
  else (0, false)

/-- Threshold cascade followed by the small-packet-flood bonus
(lines 282-284): mean size below 100 at rate above 30 adds 0.3 (capped at 1)
and forces the active flag. -/
def dosScoreActive (pps avg : ℚ) (ndest syn_packets : Nat) : ℚ × Bool :=
  let c := dosBase pps ndest syn_packets
  if avg < 100 ∧ 30 < pps then (min 1 (c.1 + 3/10), true) else c

/-- Body of DoSDetector.get_features on one source's data (lines 246-295). -/
def dos_features_data (d : DoSData) (now : ℚ) : DoSFeatures :=
  let cutoff := now - dosWindow
  let rp := d.packets.filter (fun q => cutoff < q.1)
  let rb := d.bytes.filter (fun q => cutoff < q.1)
  if rp = [] then dosDefaultFeatures
  else
    let span0 := (rp.getLastD (0, 0)).1 - (rp.headD (0, 0)).1
    let time_span := if span0 = 0 then 1 else span0
    let packet_count := rp.length
    let total_bytes := (rb.map (fun q => q.2)).sum
    let pps := (packet_count : ℚ) / time_span
    let bps := (total_bytes : ℚ) / time_span
    let avg := if 0 < packet_count then (total_bytes : ℚ) / (packet_count : ℚ) else 0
    let ndest := d.dest_ips.length
    let fin := dosScoreActive pps avg ndest d.syn_packets
    ⟨pps, bps, packet_count, ndest, d.syn_packets, fin.2, fin.1, avg⟩

/-- DoSDetector.get_features (lines 240-295). -/
def dos_get_features (m : List (String × DoSData)) (source_ip : String) (now : ℚ) :
    DoSFeatures :=
  match mapFind m source_ip with
  | none => dosDefaultFeatures
  | some d => dos_features_data d now

/-! ## R2LDetector (lines 310-393), window 300 s -/

structure R2LData where
  failed_logins : List ℚ
  privilege_escalation : List ℚ
  suspicious_commands : List ℚ
  dest_ips : List String

def R2LData.empty : R2LData := ⟨[], [], [], []⟩

def r2lWindow : ℚ := 300

/-- Body of R2LDetector.add_packet (lines 326-345): prunes the three event
lists on every write, then appends per the flags; the destination is always
added to the set (no validation in the source). -/
def r2lAddData (d : R2LData) (now : ℚ) (dest_ip : String)
    (is_failed_login is_privilege_attempt suspicious_command : Bool) : R2LData :=
  let cutoff := now - r2lWindow
  let fl := d.failed_logins.filter (fun t => cutoff < t)
  let pe := d.privilege_escalation.filter (fun t => cutoff < t)
  let sc := d.suspicious_commands.filter (fun t => cutoff < t)
  ⟨if is_failed_login then fl ++ [now] else fl,
   if is_privilege_attempt then pe ++ [now] else pe,
   if suspicious_command then sc ++ [now] else sc,
   setAddStr d.dest_ips dest_ip⟩

/-- R2LDetector.add_packet at the tracking-map level. -/
def r2l_add_packet (m : List (String × R2LData)) (now : ℚ) (source_ip dest_ip : String)
    (is_failed_login is_privilege_attempt suspicious_command : Bool) :
    List (String × R2LData) :=
  let d := (mapFind m source_ip).getD R2LData.empty
  mapSet m source_ip (r2lAddData d now dest_ip is_failed_login is_privilege_attempt
    suspicious_command)

structure R2LFeatures where
  failed_logins : Nat
  privilege_attempts : Nat
  suspicious_commands : Nat
  unique_dest_ips : Nat
  is_r2l : Bool
  r2l_score : ℚ

def r2lDefaultFeatures : R2LFeatures := ⟨0, 0, 0, 0, false, 0⟩

/-- The if/elif priority cascade of R2LDetector.get_features (lines 364-374):
failed logins take precedence over privilege attempts over suspicious
commands. -/
def r2lCascade (fl pa sc : Nat) : ℚ × Bool :=
  if 5 ≤ fl then
    let s := min 1 ((fl : ℚ) / 20)
    (s, decide ((2 : ℚ)/5 < s))
  else if 3 ≤ pa then (min 1 ((pa : ℚ) / 10), true)
  else if 5 ≤ sc then
    let s := min 1 ((sc : ℚ) / 15)
    (s, decide ((3 : ℚ)/10 < s))
  else ((0 : ℚ), false)

/-- Body of R2LDetector.get_features (lines 353-383): the counts are read as
stored (no pruning on read). -/
def r2l_features_data (d : R2LData) : R2LFeatures :=
  let fl := d.failed_logins.length
  let pa := d.privilege_escalation.length
  let sc := d.suspicious_commands.length
  let core := r2lCascade fl pa sc
  ⟨fl, pa, sc, d.dest_ips.length, core.2, core.1⟩

/-- R2LDetector.get_features (lines 347-383). -/
def r2l_get_features (m : List (String × R2LData)) (source_ip : String) : R2LFeatures :=
  match mapFind m source_ip with
  | none => r2lDefaultFeatures
  | some d => r2l_features_data d

/-! ## U2RDetector (lines 396-482), window 300 s -/

structure U2RData where
  root_commands : List ℚ
  setuid_attempts : List ℚ
  buffer_overflow_patterns : List ℚ
  suspicious_file_access : List ℚ

def U2RData.empty : U2RData := ⟨[], [], [], []⟩

def u2rWindow : ℚ := 300

/-- Body of U2RDetector.add_packet (lines 412-433). -/
def u2rAddData (d : U2RData) (now : ℚ)
    (is_root_command is_setuid_attempt is_buffer_overflow suspicious_file : Bool) : U2RData :=
  let cutoff := now - u2rWindow
  let rc := d.root_commands.filter (fun t => cutoff < t)
  let sa := d.setuid_attempts.filter (fun t => cutoff < t)
  let bo := d.buffer_overflow_patterns.filter (fun t => cutoff < t)
  let sf := d.suspicious_file_access.filter (fun t => cutoff < t)
  ⟨if is_root_command then rc ++ [now] else rc,
   if is_setuid_attempt then sa ++ [now] else sa,
   if is_buffer_overflow then bo ++ [now] else bo,
   if suspicious_file then sf ++ [now] else sf⟩

/-- U2RDetector.add_packet at the tracking-map level. -/
def u2r_add_packet (m : List (String × U2RData)) (now : ℚ) (source_ip : String)
    (is_root_command is_setuid_attempt is_buffer_overflow suspicious_file : Bool) :
    List (String × U2RData) :=
  let d := (mapFind m source_ip).getD U2RData.empty
  mapSet m source_ip (u2rAddData d now is_root_command is_setuid_attempt is_buffer_overflow
    suspicious_file)

structure U2RFeatures where
  root_commands : Nat
  setuid_attempts : Nat
  buffer_overflow_patterns : Nat
  suspicious_file_access : Nat
  is_u2r : Bool
  u2r_score : ℚ

def u2rDefaultFeatures : U2RFeatures := ⟨0, 0, 0, 0, false, 0⟩

/-- The if/elif priority cascade of U2RDetector.get_features (lines 452-463):
root commands over setuid attempts over buffer overflow (fixed 0.8) over
suspicious file accesses. -/
def u2rCascade (rc sa bo sf : Nat) : ℚ × Bool :=
  if 3 ≤ rc then (min 1 ((rc : ℚ) / 10), true)
  else if 2 ≤ sa then (min 1 ((sa : ℚ) / 5), true)
  else if 1 ≤ bo then ((4 : ℚ)/5, true)
  else if 5 ≤ sf then
    let s := min 1 ((sf : ℚ) / 15)
    (s, decide ((3 : ℚ)/10 < s))
  else ((0 : ℚ), false)

/-- Body of U2RDetector.get_features (lines 441-472). -/
def u2r_features_data (d : U2RData) : U2RFeatures :=
  let rc := d.root_commands.length
  let sa := d.setuid_attempts.length
  let bo := d.buffer_overflow_patterns.length
  let sf := d.suspicious_file_access.length
  let core := u2rCascade rc sa bo sf
  ⟨rc, sa, bo, sf, core.2, core.1⟩

/-- U2RDetector.get_features (lines 435-472). -/
def u2r_get_features (m : List (String × U2RData)) (source_ip : String) : U2RFeatures :=
  match mapFind m source_ip with
  | none => u2rDefaultFeatures
  | some d => u2r_features_data d

/-! ## BruteForceDetector (lines 485-601), window 300 s -/

structure BFData where
  login_attempts : List ℚ
  failed_attempts : List ℚ
  successful_after_failures : List ℚ
  target_ports : List Nat

def BFData.empty : BFData := ⟨[], [], [], []⟩

def bfWindow : ℚ := 300

/-- Body of BruteForceDetector.add_packet on one source's data
(lines 514-545). -/
def bfAddData (d : BFData) (now : ℚ) (dest_port : Option Nat)
    (is_login_attempt is_failed is_success_after_failures : Bool) : BFData :=
  let cutoff := now - bfWindow
  let la := d.login_attempts.filter (fun t => cutoff < t)
  let fa := d.failed_attempts.filter (fun t => cutoff < t)
  let sa := d.successful_after_failures.filter (fun t => cutoff < t)
  let tp := match dest_port with
    | some p => setAdd d.target_ports p
    | none => d.target_ports
  if is_login_attempt then
    ⟨la ++ [now],
     if is_failed then fa ++ [now] else fa,
     if is_success_after_failures then sa ++ [now] else sa,
     tp⟩
  else ⟨la, fa, sa, tp⟩

/-- BruteForceDetector.add_packet (lines 498-547) with its input validation. -/
def bf_add_packet (m : List (String × BFData)) (now : ℚ) (source_ip : String)
    (dest_port : Option Int)
    (is_login_attempt is_failed is_success_after_failures : Bool) :
    List (String × BFData) :=
  if source_ip = "" then m
  else
    let d := (mapFind m source_ip).getD BFData.empty
    mapSet m source_ip (bfAddData d now (validPort dest_port) is_login_attempt is_failed
      is_success_after_failures)

structure BFFeatures where
  login_attempts : Nat
  failed_attempts : Nat
  success_after_failures : Nat
  target_ports : Nat
  is_brute_force : Bool
  brute_force_score : ℚ

def bfDefaultFeatures : BFFeatures := ⟨0, 0, 0, 0, false, 0⟩

/-- The if/elif priority cascade of BruteForceDetector.get_features
(lines 567-582): ten failed attempts fire unconditionally, then the
failure-rate rule, then success-after-failures (fixed 0.9), then sheer attempt
volume. -/
def bfCascade (la fa sa : Nat) : ℚ × Bool :=
  if 10 ≤ fa then (min 1 ((fa : ℚ) / 50), true)
  else if 5 ≤ fa ∧ 8 ≤ la then
    let fr := if 0 < la then (fa : ℚ) / (la : ℚ) else 0
    let s := min 1 (fr * ((fa : ℚ) / 10))
    (s, decide ((2 : ℚ)/5 < s))
  else if 1 ≤ sa ∧ 3 ≤ fa then ((9 : ℚ)/10, true)
  else if 20 ≤ la then
    let s := min 1 ((la : ℚ) / 100)
    (s, decide ((3 : ℚ)/10 < s))
  else ((0 : ℚ), false)

/-- Body of BruteForceDetector.get_features (lines 555-591): the cascade over
the stored counts (no pruning on read). -/
def bf_features_data (d : BFData) : BFFeatures :=
  let la := d.login_attempts.length
  let fa := d.failed_attempts.length
  let sa := d.successful_after_failures.length
  let core := bfCascade la fa sa
  ⟨la, fa, sa, d.target_ports.length, core.2, core.1⟩

/-- BruteForceDetector.get_features (lines 549-591). -/
def bf_get_features (m : List (String × BFData)) (source_ip : String) : BFFeatures :=
  match mapFind m source_ip with
  | none => bfDefaultFeatures
  | some d => bf_features_data d

/-! ## ComprehensiveAttackDetector.analyze_packet (lines 604-794) -/

/-- The six-entry attack_scores dict built at lines 710-717 (insertion order
probe, dos, r2l, u2r, brute_force, normal). -/
structure Scores where
  probe : ℚ
  dos : ℚ
  r2l : ℚ
  u2r : ℚ
  brute_force : ℚ
  normal : ℚ

/-- attack_scores.values() in insertion order. -/
def Scores.values (s : Scores) : List ℚ :=
  [s.probe, s.dos, s.r2l, s.u2r, s.brute_force, s.normal]

/-- all_scores.get(k, 0) for a string key. -/
def Scores.get (s : Scores) (k : String) : ℚ :=
  if k = "probe" then s.probe
  else if k = "dos" then s.dos
  else if k = "r2l" then s.r2l
  else if k = "u2r" then s.u2r
  else if k = "brute_force" then s.brute_force
  else if k = "normal" then s.normal
  else 0

/-- Python max(items, key=value) keeps the first maximal item: the accumulator
is replaced only on a strictly larger value. -/
def firstMaxAux : List (String × ℚ) → String × ℚ → String × ℚ
  | [], acc => acc
  | x :: xs, acc => firstMaxAux xs (if acc.2 < x.2 then x else acc)

/-- max(attack_scores.items(), key=lambda x: x[1]) over the dict in insertion
order (line 729). -/
def maxAttack (s : Scores) : String × ℚ :=
  firstMaxAux
    [("dos", s.dos), ("r2l", s.r2l), ("u2r", s.u2r), ("brute_force", s.brute_force),
     ("normal", s.normal)]
    ("probe", s.probe)

/-- The result dictionary of analyze_packet (lines 765-775). -/
structure DetectionResult where
  attack_type : String
  is_malicious : Bool
  confidence : ℚ
  port_scan_features : PSFeatures
  dos_features : DoSFeatures
  r2l_features : R2LFeatures
  u2r_features : U2RFeatures
  brute_force_features : BFFeatures
  all_scores : Scores

/-- ComprehensiveAttackDetector._default_detection_result (lines 782-794). -/
def default_detection_result : DetectionResult :=
  ⟨"normal", false, 0, psDefaultFeatures, dosDefaultFeatures, r2lDefaultFeatures,
   u2rDefaultFeatures, bfDefaultFeatures, ⟨0, 0, 0, 0, 0, 0⟩⟩

/-- The verdict-aggregation tail of analyze_packet (lines 709-775): pick the
maximal score, gate the category at 0.3, OR the five active flags into the
malicious bit, and relabel a malicious "normal" as "unknown_attack" with the
maximal non-zero score as confidence (0.5 if every score is zero). -/
def aggregate_scores (ps : PSFeatures) (dosF : DoSFeatures) (r2lF : R2LFeatures)
    (u2rF : U2RFeatures) (bfF : BFFeatures) : DetectionResult :=
  let scores : Scores :=
    ⟨ps.port_scan_score, dosF.dos_score, r2lF.r2l_score, u2rF.u2r_score,
     bfF.brute_force_score, 0⟩
  let m := maxAttack scores
  let attack_type := if 3/10 < m.2 then m.1 else "normal"
  let confidence := max 0 (min 1 m.2)
  let is_mal := ps.is_port_scan || dosF.is_dos || r2lF.is_r2l || u2rF.is_u2r ||
    bfF.is_brute_force || decide (attack_type ≠ "normal")
  if is_mal = true ∧ attack_type = "normal" then
    let nz := scores.values.filter (fun v => 0 < v)
    let c := match nz with
      | [] => (1 : ℚ)/2
      | x :: xs => xs.foldl max x
    ⟨"unknown_attack", is_mal, max 0 (min 1 c), ps, dosF, r2lF, u2rF, bfF, scores⟩
  else ⟨attack_type, is_mal, confidence, ps, dosF, r2lF, u2rF, bfF, scores⟩

/-- A raw Python value sitting in a packet dict field. -/
inductive RawVal
  | vStr (s : String)
  | vInt (n : Int)
  | vNone
  | vAbsent

/-- The packet dict fields analyze_packet reads. -/
structure RawPacket where
  start_ip : RawVal
  end_ip : RawVal
  protocol : RawVal
  description : RawVal
  start_bytes : RawVal
  end_bytes : RawVal

/-- The argument of analyze_packet: a dict, or anything else (line 626). -/
inductive PacketInput
  | dict (p : RawPacket)
  | notDict

/-- Characters stripped by Python str.strip(). -/
def isSpaceChar (c : Char) : Bool := c == ' ' || c == '\t' || c == '\n' || c == '\r'

/-- str.strip() on a character list. -/
def stripChars (l : List Char) : List Char :=
  ((l.dropWhile isSpaceChar).reverse.dropWhile isSpaceChar).reverse

/-- str.strip() on a string. -/
def pyStrip (s : String) : String := ⟨stripChars s.data⟩

/-- str(packet.get(field, dflt)) : a missing field gives the default, None
prints as "None". -/
def pyStr (v : RawVal) (dflt : String) : String :=
  match v with
  | .vStr s => s
  | .vInt n => toString n
  | .vNone => "None"
  | .vAbsent => dflt

/-- Digit run to a natural number, None on a non-digit. -/
def digitsToNat : List Char → Option Nat
  | [] => none
  | l => l.foldl
      (fun acc c =>
        match acc with
        | none => none
        | some n => if c.isDigit then some (n * 10 + (c.toNat - 48)) else none)
      (some 0)

/-- Python int(s) on an already-stripped character list. -/
def parseIntChars : List Char → Option Int
  | '-' :: rest => (digitsToNat rest).map (fun n => -(n : Int))
  | '+' :: rest => (digitsToNat rest).map (fun n => (n : Int))
  | l => (digitsToNat l).map (fun n => (n : Int))

/-- Python int(s) for a string: strips whitespace, ValueError becomes None. -/
def pyToInt (s : String) : Option Int := parseIntChars (stripChars s.data)

/-- Python int(packet.get(field, 0) or 0) for the byte-count fields
(line 637): absent and None and "" coerce to 0, a non-numeric string raises
(modelled as an error caught by the outer handler of analyze_packet). -/
def pyIntOr0 (v : RawVal) : Except Unit Int :=
  match v with
  | .vAbsent => .ok 0
  | .vNone => .ok 0
  | .vInt n => .ok n
  | .vStr s =>
    if s = "" then .ok 0
    else match pyToInt s with
      | some n => .ok n
      | none => .error ()

/-- Characters strictly between the first "->" and the next "->" or the end
(the second element of str.split("->")). -/
def untilArrow : List Char → List Char
  | [] => []
  | '-' :: '>' :: _ => []
  | c :: rest => c :: untilArrow rest

/-- Some segment after the first "->", or none when "->" does not occur. -/
def afterArrow : List Char → Option (List Char)
  | [] => none
  | '-' :: '>' :: rest => some (untilArrow rest)
  | _ :: rest => afterArrow rest

/-- seg.strip().split()[0]: None when only whitespace remains (the IndexError
case, caught in the source). -/
def firstToken (l : List Char) : Option (List Char) :=
  let l' := l.dropWhile isSpaceChar
  if l' = [] then none else some (l'.takeWhile (fun c => ¬ isSpaceChar c))

/-- Destination-port extraction of analyze_packet (lines 641-649): the token
after "->" is parsed as an int and clamped into [1, 65535]; any parse failure
yields None. -/
def parsePortFromDescription (description : String) : Option Nat :=
  match afterArrow description.data with
  | none => none
  | some seg =>
    match firstToken (stripChars seg) with
    | none => none
    | some tok =>
      match parseIntChars tok with
      | none => none
      | some n => some (max 1 (min n 65535)).toNat

/-- Python sub in s for character lists. -/
def containsSub : List Char → List Char → Bool
  | [], sub => sub.isEmpty
  | l@(_ :: rest), sub => sub.isPrefixOf l || containsSub rest sub

/-- s.lower() character by character. -/
def lowerChars (l : List Char) : List Char := l.map Char.toLower

/-- The login-attempt port list of analyze_packet (line 663). -/
def login_ports : List Nat := [22, 23, 80, 443, 3306, 5432, 3389, 5900]

/-- The state owned by ComprehensiveAttackDetector: one tracking map per
detector (lines 607-612). -/
structure CompState where
  port_scan : List (String × PortScanData)
  dos : List (String × DoSData)
  r2l : List (String × R2LData)
  u2r : List (String × U2RData)
  brute_force : List (String × BFData)

/-- A fresh ComprehensiveAttackDetector: every tracking map empty. -/
def CompState.init : CompState := ⟨[], [], [], [], []⟩

/-- analyze_packet (lines 614-780) up to its outer exception handler: field
coercion and validation, updates of the port-scan, DoS and brute-force
detectors (R2L and U2R are never written), feature queries, aggregation.
The only uncaught-within-the-body failure is a non-numeric byte-count string,
which the outer handler turns into the default result. -/
def analyze_packet_core (st : CompState) (pkt : PacketInput) (now : ℚ) :
    Except Unit (DetectionResult × CompState) :=
  match pkt with
  | .notDict => .ok (default_detection_result, st)
  | .dict p =>
    let source_ip := pyStrip (pyStr p.start_ip "")
    let dest_ip := pyStrip (pyStr p.end_ip "")
    if source_ip = "" ∨ dest_ip = "" ∨ source_ip = "0.0.0.0" ∨ dest_ip = "0.0.0.0" then
      .ok (default_detection_result, st)
    else
      match pyIntOr0 p.start_bytes, pyIntOr0 p.end_bytes with
      | .error e, _ => .error e
      | .ok _, .error e => .error e
      | .ok sb, .ok eb =>
        let packet_size := max 0 (min (sb + eb) 65535)
        let description := pyStrip (pyStr p.description "")
        let dest_port := parsePortFromDescription description
        let ps1 := ps_add_packet st.port_scan now source_ip dest_ip
          (dest_port.map (fun n => (n : Int)))
        let dos1 := dos_add_packet st.dos now source_ip dest_ip packet_size false false
        let is_login_attempt := match dest_port with
          | some q => decide (q ∈ login_ports)
          | none => false
        let low := lowerChars description.data
        let is_failed := containsSub low "failed".data || containsSub low "denied".data ||
          containsSub low "refused".data
        let bf1 := bf_add_packet st.brute_force now source_ip
          (dest_port.map (fun n => (n : Int))) is_login_attempt is_failed false
        let psF := ps_get_features ps1 source_ip now
        let dosF := dos_get_features dos1 source_ip now
        let r2lF := r2l_get_features st.r2l source_ip
        let u2rF := u2r_get_features st.u2r source_ip
        let bfF := bf_get_features bf1 source_ip
        .ok (aggregate_scores psF dosF r2lF u2rF bfF, ⟨ps1, dos1, st.r2l, st.u2r, bf1⟩)

/-- analyze_packet with its outer exception handler (lines 776-780): any
internal error degrades to the default result and leaves the state as it
was. -/
def analyze_packet (st : CompState) (pkt : PacketInput) (now : ℚ) :
    DetectionResult × CompState :=
  match analyze_packet_core st pkt now with
  | .ok r => r
  | .error _ => (default_detection_result, st)

/-- Fold a timed event stream through analyze_packet, collecting the results. -/
def run_packets (st : CompState) : List (PacketInput × ℚ) → CompState × List DetectionResult
  | [] => (st, [])
  | (pkt, now) :: rest =>
    let r := analyze_packet st pkt now
    let next := run_packets r.2 rest
    (next.1, r.1 :: next.2)

/-! ## Arbitration (prediction_service.py lines 439-941)

The detector verdict consumed by the predict endpoint: attack_type,
confidence, is_malicious and all_scores of the analyze_packet result. The ML
side enters as binary label, attack type and the two confidences. -/

/-- The classifier-side quantities of predict before the override
(binary_label, attack_type, binary_confidence, multiclass_confidence). -/
structure MLVerdict where
  binary_label : String
  attack_type : String
  binary_confidence : ℚ
  multiclass_confidence : ℚ

/-- The rule-based verdict as read from the attack_detection dict
(lines 712-716). -/
structure RuleVerdict where
  attack_type : String
  confidence : ℚ
  is_malicious : Bool
  all_scores : Scores

/-- The detector-override block of predict (lines 708-816): when the detector
is malicious it rewrites the label, the category, and floors the confidences
by the detector-confidence tier; the following elif branches only boost
confidences. The Python truthiness test on detected_attack_type is the
non-empty-string test. -/
def detector_override (ml : MLVerdict) (det : RuleVerdict) : MLVerdict :=
  let at1 := if det.is_malicious = true ∧ det.attack_type ≠ "" ∧ det.attack_type ≠ "normal"
    then det.attack_type else ml.attack_type
  if det.is_malicious then
    let at2 := if det.attack_type ≠ "" ∧ det.attack_type ≠ "normal" then det.attack_type
      else if at1 = "normal" then "unknown_attack" else at1
    let bc :=
      if 4/5 ≤ det.confidence then max (19/20) det.confidence
      else if 3/5 ≤ det.confidence then max (17/20) det.confidence
      else if 2/5 ≤ det.confidence then max (3/4) det.confidence
      else max ml.binary_confidence (det.confidence + 1/5)
    let mc :=
      if 4/5 ≤ det.confidence then max (9/10) det.confidence
      else if 3/5 ≤ det.confidence then max (4/5) det.confidence
      else if 2/5 ≤ det.confidence then max (7/10) det.confidence
      else max ml.multiclass_confidence (det.confidence + 3/20)
    let bc2 := if det.attack_type = "unknown_attack" then max (4/5) bc else bc
    let mc2 := if det.attack_type = "unknown_attack" then max (3/4) mc else mc
    ⟨"malicious", at2, bc2, mc2⟩
  else if ml.binary_label = "benign" ∧ 3/10 < det.confidence then
    ⟨ml.binary_label, at1, max ml.binary_confidence (det.confidence * (4/5)),
     max ml.multiclass_confidence (det.confidence * (3/4))⟩
  else ⟨ml.binary_label, at1, ml.binary_confidence, ml.multiclass_confidence⟩

/-- attack_type_probs.get(k, 0). -/
def pdictGet (m : List (String × ℚ)) (k : String) : ℚ := (mapFind m k).getD 0

/-- k in attack_type_probs. -/
def pdictMem (m : List (String × ℚ)) (k : String) : Bool := (mapFind m k).isSome

/-- sum(attack_type_probs.values()). -/
def pdictSum (m : List (String × ℚ)) : ℚ := (m.map (fun kv => kv.2)).sum

/-- The category list iterated at lines 838 and 846 (and the fill-in loops). -/
def attack_names : List String := ["normal", "dos", "probe", "r2l", "u2r", "brute_force"]

/-- The five non-normal categories iterated at lines 916 and 972. -/
def attack_only_names : List String := ["dos", "probe", "r2l", "u2r", "brute_force"]

/-- sum([max(0, float(s)) for s in all_scores.values()]) at line 842. -/
def clippedTotal (det : RuleVerdict) : ℚ :=
  ((Scores.values det.all_scores).map (fun s => max 0 s)).sum

/-- The rule-based-only construction of attack_type_probs before the final
raise (lines 842-858): normalize the clipped detector scores when their
positive mass is non-zero, otherwise seed the detected type with
max(0.5, confidence) and fill the six categories with zeros. -/
def rule_based_probs_base (det : RuleVerdict) : List (String × ℚ) :=
  if 0 < clippedTotal det then
    attack_names.map (fun k => (k, max 0 (min 1 (det.all_scores.get k / clippedTotal det))))
  else
    attack_names.foldl (fun m k => if pdictMem m k then m else mapSet m k 0)
      (mapSet [] det.attack_type (max (1/2) det.confidence))

/-- The rule-based-only construction of attack_type_probs (lines 837-865, the
branch taken when no ML model is loaded): the base dict, with the detected
type's entry, when present, raised to at least the detector confidence
(lines 861-863). -/
def rule_based_probs (det : RuleVerdict) : List (String × ℚ) :=
  let probs := rule_based_probs_base det
  if pdictMem probs det.attack_type then
    mapSet probs det.attack_type (max (pdictGet probs det.attack_type) det.confidence)
  else probs

/-- Renormalization with the zero-sum fallback (lines 921-940 and 977-996):
divide by the total when it is positive, otherwise equal probabilities
1/len. -/
def normalizeProbs (m : List (String × ℚ)) : List (String × ℚ) :=
  let total := pdictSum m
  if 0 < total then m.map (fun kv => (kv.1, kv.2 / total))
  else m.map (fun kv => (kv.1, 1 / (m.length : ℚ)))

/-- The dominant-category boost of predict when the detected type is a key of
the dict (lines 902-940): the detected entry is raised, the normal entry is
multiplicatively suppressed by the confidence-dependent factor, the other
attack categories are scaled by 0.7, and the dict is renormalized. -/
def boostKnown (det : RuleVerdict) (probs : List (String × ℚ)) : List (String × ℚ) :=
  let p1 := mapSet probs det.attack_type
    (max (max (pdictGet probs det.attack_type) det.confidence)
      (min (19/20) (det.confidence + 1/5)))
  let p2 :=
    if pdictMem p1 "normal" then
      let f : ℚ := if 7/10 ≤ det.confidence then 1/10
        else if 1/2 ≤ det.confidence then 3/10 else 1/2
      mapSet p1 "normal" (max 0 (pdictGet p1 "normal" * f))
    else p1
  let p3 := attack_only_names.foldl
    (fun m k =>
      if k ≠ det.attack_type ∧ pdictMem m k = true then mapSet m k (pdictGet m k * (7/10))
      else m) p2
  normalizeProbs p3

/-- The unknown-attack boost (lines 964-996): every named attack category is
raised toward confidence/5, normal is suppressed by 0.2, and the dict is
renormalized. -/
def boostUnknown (det : RuleVerdict) (probs : List (String × ℚ)) : List (String × ℚ) :=
  let ap := det.confidence / 5
  let p1 := attack_only_names.foldl
    (fun m k => mapSet m k (max (max (pdictGet m k) ap) (min (2/5) (ap + 1/10)))) probs
  let p2 := if pdictMem p1 "normal" then mapSet p1 "normal" (max 0 (pdictGet p1 "normal" * (1/5)))
    else p1
  normalizeProbs p2

/-- The malicious-detection probability boost of predict (lines 898-996):
when the detector verdict is malicious, the detected category (when it is a
key) is made dominant, or for a detected "unknown_attack" that is not a key
the five attack categories are raised; in both cases the dict is
renormalized. -/
def boost_probs (det : RuleVerdict) (probs : List (String × ℚ)) : List (String × ℚ) :=
  if det.is_malicious = false then probs
  else if pdictMem probs det.attack_type then boostKnown det probs
  else if det.attack_type = "unknown_attack" then boostUnknown det probs
  else probs

/-- The full attack_type_probabilities computation on the rule-based-only
path: construction from the detector verdict followed by the malicious
boost. -/
def arbitrate_probs (det : RuleVerdict) : List (String × ℚ) :=
  boost_probs det (rule_based_probs det)


/-! ## Helper lemmas -/

theorem mapSet_ne_nil {α : Type} (m : List (String × α)) (k : String) (v : α) :
    mapSet m k v ≠ [] := by
  cases m with
  | nil => simp [mapSet]
  | cons kv rest =>
    obtain ⟨k', v'⟩ := kv
    simp only [mapSet]
    split <;> simp

theorem mem_mapSet {α : Type} (m : List (String × α)) (k : String) (v : α) :
    ∀ kv ∈ mapSet m k v, kv.2 = v ∨ kv ∈ m := by
  induction m with
  | nil => intro kv h; simp [mapSet] at h; simp [h]
  | cons kv0 rest ih =>
    obtain ⟨k', v'⟩ := kv0
    intro kv h
    simp only [mapSet] at h
    split at h
    · rcases List.mem_cons.mp h with h1 | h1
      · left; simp [h1]
      · right; exact List.mem_cons_of_mem _ h1
    · rcases List.mem_cons.mp h with h1 | h1
      · right; simp [h1]
      · rcases ih kv h1 with h2 | h2
        · left; exact h2
        · right; exact List.mem_cons_of_mem _ h2

theorem mapFind_mem {α : Type} (m : List (String × α)) (k : String) (v : α)
    (h : mapFind m k = some v) : (k, v) ∈ m := by
  induction m with
  | nil => simp [mapFind] at h
  | cons kv0 rest ih =>
    obtain ⟨k', v'⟩ := kv0
    simp only [mapFind] at h
    split at h
    · rename_i he
      simp at h
      simp [he, h]
    · exact List.mem_cons_of_mem _ (ih h)

theorem pdictGet_nonneg (m : List (String × ℚ)) (k : String)
    (h : ∀ kv ∈ m, 0 ≤ kv.2) : 0 ≤ pdictGet m k := by
  unfold pdictGet
  cases hf : mapFind m k with
  | none => simp
  | some v => simpa using h (k, v) (mapFind_mem m k v hf)

theorem pdictMem_mapSet_self {α : Type} (m : List (String × α)) (k : String) (v : α) :
    (mapFind (mapSet m k v) k).isSome = true := by
  induction m with
  | nil => simp [mapSet, mapFind]
  | cons kv0 rest ih =>
    obtain ⟨k', v'⟩ := kv0
    simp only [mapSet]
    split
    · simp [mapFind]
    · rename_i hne
      simp only [mapFind]
      split
      · simp
      · exact ih

theorem pdictMem_mapSet_mono {α : Type} (m : List (String × α)) (k k' : String) (v : α)
    (h : (mapFind m k).isSome = true) : (mapFind (mapSet m k' v) k).isSome = true := by
  induction m with
  | nil => simp [mapFind] at h
  | cons kv0 rest ih =>
    obtain ⟨k0, v0⟩ := kv0
    simp only [mapFind] at h
    simp only [mapSet]
    by_cases hk : k0 = k'
    · rw [if_pos hk]
      simp only [mapFind]
      by_cases hkk : k' = k
      · simp [hkk]
      · rw [if_neg hkk]
        rw [if_neg (by rw [hk]; exact hkk)] at h
        exact h
    · rw [if_neg hk]
      simp only [mapFind]
      by_cases hkk : k0 = k
      · simp [hkk]
      · rw [if_neg hkk] at h ⊢
        exact ih h

theorem foldl_preserve {α β : Type} (P : α → Prop) (f : α → β → α)
    (hf : ∀ a b, P a → P (f a b)) :
    ∀ (l : List β) (a : α), P a → P (List.foldl f a l) := by
  intro l
  induction l with
  | nil => intro a h; simpa using h
  | cons b rest ih => intro a h; exact ih (f a b) (hf a b h)

theorem sum_map_div (l : List ℚ) (T : ℚ) : (l.map (fun x => x / T)).sum = l.sum / T := by
  induction l with
  | nil => simp
  | cons x rest ih => simp [ih, add_div]

theorem pdictSum_map_div (m : List (String × ℚ)) (T : ℚ) :
    pdictSum (m.map (fun kv => (kv.1, kv.2 / T))) = pdictSum m / T := by
  induction m with
  | nil => simp [pdictSum]
  | cons kv rest ih =>
    simp only [pdictSum, List.map_cons, List.sum_cons] at ih ⊢
    rw [ih, add_div]

theorem pdictSum_map_const (m : List (String × ℚ)) (c : ℚ) :
    pdictSum (m.map (fun kv => (kv.1, c))) = m.length * c := by
  induction m with
  | nil => simp [pdictSum]
  | cons kv rest ih =>
    simp only [pdictSum, List.map_cons, List.sum_cons, List.length_cons] at ih ⊢
    rw [ih]
    push_cast
    ring

theorem normalizeProbs_sum (m : List (String × ℚ)) (hne : m ≠ []) :
    pdictSum (normalizeProbs m) = 1 := by
  have hlen : (m.length : ℚ) ≠ 0 := by
    simp only [ne_eq, Nat.cast_eq_zero, List.length_eq_zero]
    exact hne
  by_cases hpos : 0 < pdictSum m
  · have he : normalizeProbs m = m.map (fun kv => (kv.1, kv.2 / pdictSum m)) := by
      simp [normalizeProbs, hpos]
    rw [he, pdictSum_map_div]
    exact div_self (ne_of_gt hpos)
  · have he : normalizeProbs m = m.map (fun kv => (kv.1, 1 / (m.length : ℚ))) := by
      simp [normalizeProbs, hpos]
    rw [he, pdictSum_map_const]
    field_simp

theorem normalizeProbs_nonneg (m : List (String × ℚ)) (h : ∀ kv ∈ m, 0 ≤ kv.2) :
    ∀ kv ∈ normalizeProbs m, 0 ≤ kv.2 := by
  by_cases hpos : 0 < pdictSum m
  · have he : normalizeProbs m = m.map (fun kv => (kv.1, kv.2 / pdictSum m)) := by
      simp [normalizeProbs, hpos]
    rw [he]
    intro kv hkv
    obtain ⟨kv0, hkv0, rfl⟩ := List.mem_map.mp hkv
    exact div_nonneg (h kv0 hkv0) (le_of_lt hpos)
  · have he : normalizeProbs m = m.map (fun kv => (kv.1, 1 / (m.length : ℚ))) := by
      simp [normalizeProbs, hpos]
    rw [he]
    intro kv hkv
    obtain ⟨kv0, _, rfl⟩ := List.mem_map.mp hkv
    simp only
    positivity


/-! ## Detector score facts -/

theorem psBase_nonneg (n : Nat) (pps : ℚ) : 0 ≤ (psBase n pps).1 := by
  unfold psBase
  split_ifs with h1 h2 h3
  · have : (0 : ℚ) ≤ ((n : ℚ) / 100) * (pps / 50) := by
      have := h1.2
      positivity
    simp only
    exact le_min (by norm_num) this
  · have : (0 : ℚ) ≤ ((n : ℚ) / 50) * (pps / 100) := by
      have := h2.2
      positivity
    simp only
    exact le_min (by norm_num) this
  · have : (0 : ℚ) ≤ (n : ℚ) / 200 := by positivity
    simp only
    exact le_min (by norm_num) this
  · simp

theorem psScoreActive_nonneg (n : Nat) (pps seq : ℚ) : 0 ≤ (psScoreActive n pps seq).1 := by
  unfold psScoreActive
  split_ifs with h
  · have := psBase_nonneg n pps
    simp only
    refine le_min (by norm_num) (by linarith)
  · exact psBase_nonneg n pps

theorem ps_features_score_nonneg (d : PortScanData) (now : ℚ) :
    0 ≤ (ps_features_data d now).port_scan_score := by
  simp only [ps_features_data]
  split_ifs <;> first
    | exact psScoreActive_nonneg _ _ _
    | simp [psDefaultFeatures]

theorem ps_get_features_score_nonneg (m : List (String × PortScanData)) (ip : String)
    (now : ℚ) : 0 ≤ (ps_get_features m ip now).port_scan_score := by
  unfold ps_get_features
  cases mapFind m ip with
  | none => simp [psDefaultFeatures]
  | some d => exact ps_features_score_nonneg d now

theorem dosBase_nonneg (pps : ℚ) (ndest syn_packets : Nat) :
    0 ≤ (dosBase pps ndest syn_packets).1 := by
  unfold dosBase
  split_ifs with h1 h2 h3
  · simp only
    refine le_min (by norm_num) (div_nonneg (by linarith) (by norm_num))
  · simp only
    refine le_min (by norm_num) ?_
    have h2a := h2.1
    exact mul_nonneg (div_nonneg (by linarith) (by norm_num))
      (div_nonneg (by norm_num) (Nat.cast_nonneg _))
  · simp only
    refine le_min (by norm_num) ?_
    have h3b := h3.2
    exact mul_nonneg (div_nonneg (Nat.cast_nonneg _) (by norm_num))
      (div_nonneg (by linarith) (by norm_num))
  · simp

theorem dosScoreActive_nonneg (pps avg : ℚ) (ndest syn_packets : Nat) :
    0 ≤ (dosScoreActive pps avg ndest syn_packets).1 := by
  unfold dosScoreActive
  split_ifs with h
  · simp only
    have := dosBase_nonneg pps ndest syn_packets
    exact le_min (by norm_num) (by linarith)
  · exact dosBase_nonneg pps ndest syn_packets

theorem dos_features_score_nonneg (d : DoSData) (now : ℚ) :
    0 ≤ (dos_features_data d now).dos_score := by
  simp only [dos_features_data]
  split_ifs <;> first
    | exact dosScoreActive_nonneg _ _ _ _
    | simp [dosDefaultFeatures]

theorem dos_get_features_score_nonneg (m : List (String × DoSData)) (ip : String)
    (now : ℚ) : 0 ≤ (dos_get_features m ip now).dos_score := by
  unfold dos_get_features
  cases mapFind m ip with
  | none => simp [dosDefaultFeatures]
  | some d => exact dos_features_score_nonneg d now

theorem bfCascade_nonneg (la fa sa : Nat) : 0 ≤ (bfCascade la fa sa).1 := by
  unfold bfCascade
  split_ifs <;> simp only <;> positivity

theorem bf_features_score_nonneg (d : BFData) :
    0 ≤ (bf_features_data d).brute_force_score := by
  simp only [bf_features_data]
  exact bfCascade_nonneg _ _ _

theorem bf_get_features_score_nonneg (m : List (String × BFData)) (ip : String) :
    0 ≤ (bf_get_features m ip).brute_force_score := by
  unfold bf_get_features
  cases mapFind m ip with
  | none => simp [bfDefaultFeatures]
  | some d => exact bf_features_score_nonneg d

/-- The first-maximum selection never lands on a zero-scored late entry when an
earlier entry is non-negative: with zero r2l, u2r and normal scores the chosen
category is probe, dos or brute_force. -/
theorem maxAttack_name (s : Scores) (hr : s.r2l = 0) (hu : s.u2r = 0) (hn : s.normal = 0)
    (hp : 0 ≤ s.probe) (hd : 0 ≤ s.dos) (hb : 0 ≤ s.brute_force) :
    (maxAttack s).1 = "probe" ∨ (maxAttack s).1 = "dos" ∨ (maxAttack s).1 = "brute_force" := by
  simp only [maxAttack, firstMaxAux]
  split_ifs <;> simp_all <;> linarith

/-! ## C5: priority-cascade exclusivity for R2L, U2R and brute force -/

/-- C5: for R2LDetector, U2RDetector and BruteForceDetector the rule cascade is
exclusive: on a state satisfying two cascade conditions at once, the
higher-priority rule alone determines the returned score and active flag (the
lower rule contributes nothing).  Stated for the representative overlapping
pairs: R2L failed-logins over privilege attempts, U2R root commands over
setuid attempts, brute-force ten-failures over twenty-attempts. -/
theorem cascade_exclusive :
    (∀ d : R2LData, 5 ≤ d.failed_logins.length → 3 ≤ d.privilege_escalation.length →
      (r2l_features_data d).r2l_score = min 1 ((d.failed_logins.length : ℚ) / 20) ∧
      (r2l_features_data d).is_r2l =
        decide ((2 : ℚ)/5 < min 1 ((d.failed_logins.length : ℚ) / 20))) ∧
    (∀ d : U2RData, 3 ≤ d.root_commands.length → 2 ≤ d.setuid_attempts.length →
      (u2r_features_data d).u2r_score = min 1 ((d.root_commands.length : ℚ) / 10) ∧
      (u2r_features_data d).is_u2r = true) ∧
    (∀ d : BFData, 10 ≤ d.failed_attempts.length → 20 ≤ d.login_attempts.length →
      (bf_features_data d).brute_force_score = min 1 ((d.failed_attempts.length : ℚ) / 50) ∧
      (bf_features_data d).is_brute_force = true) := by
  refine ⟨fun d h1 h2 => ?_, fun d h1 h2 => ?_, fun d h1 h2 => ?_⟩
  · simp only [r2l_features_data, r2lCascade, if_pos h1]
    refine ⟨?_, ?_⟩ <;> first | rfl | trivial
  · simp only [u2r_features_data, u2rCascade, if_pos h1]
    refine ⟨?_, ?_⟩ <;> first | rfl | trivial
  · simp only [bf_features_data, bfCascade, if_pos h1]
    refine ⟨?_, ?_⟩ <;> first | rfl | trivial

/-- Concrete state with 6 failed logins and 3 privilege attempts (R2L), 3 root
commands and 2 setuid attempts (U2R), 10 failures among 20 attempts (brute
force). -/
def r2lOverlap : R2LData := ⟨[0, 0, 0, 0, 0, 0], [0, 0, 0], [], []⟩

def u2rOverlap : U2RData := ⟨[0, 0, 0], [0, 0], [], []⟩

def bfOverlap : BFData :=
  ⟨[0, 0, 0, 0, 0, 0, 0, 0, 0, 0, 0, 0, 0, 0, 0, 0, 0, 0, 0, 0],
   [0, 0, 0, 0, 0, 0, 0, 0, 0, 0], [], []⟩

/-- Witness for C5 at states satisfying two cascade conditions at once. -/
theorem cascade_exclusive_witness :
    ((r2l_features_data r2lOverlap).r2l_score =
        min 1 ((r2lOverlap.failed_logins.length : ℚ) / 20) ∧
      (r2l_features_data r2lOverlap).is_r2l =
        decide ((2 : ℚ)/5 < min 1 ((r2lOverlap.failed_logins.length : ℚ) / 20))) ∧
    ((u2r_features_data u2rOverlap).u2r_score =
        min 1 ((u2rOverlap.root_commands.length : ℚ) / 10) ∧
      (u2r_features_data u2rOverlap).is_u2r = true) ∧
    ((bf_features_data bfOverlap).brute_force_score =
        min 1 ((bfOverlap.failed_attempts.length : ℚ) / 50) ∧
      (bf_features_data bfOverlap).is_brute_force = true) :=
  ⟨cascade_exclusive.1 r2lOverlap (by simp [r2lOverlap]) (by simp [r2lOverlap]),
   cascade_exclusive.2.1 u2rOverlap (by simp [u2rOverlap]) (by simp [u2rOverlap]),
   cascade_exclusive.2.2 bfOverlap (by simp [bfOverlap]) (by simp [bfOverlap])⟩

/-! ## C4: the 12-failed-logins boundary case -/

/-- C4: a source state with exactly 12 failed login attempts recorded (and no
other signal) scores min(1, 12/50) = 0.24 with the active flag forced by the
ten-failures rule; aggregation over otherwise-default detector features yields
malicious = true, category unknown_attack (0.24 is below the 0.3 gate), and
confidence 0.24, the highest non-zero score. -/
theorem brute_force_boundary (d : BFData) (h : d.failed_attempts.length = 12) :
    (bf_features_data d).brute_force_score = 6/25 ∧
    (bf_features_data d).is_brute_force = true ∧
    (aggregate_scores psDefaultFeatures dosDefaultFeatures r2lDefaultFeatures
        u2rDefaultFeatures (bf_features_data d)).is_malicious = true ∧
    (aggregate_scores psDefaultFeatures dosDefaultFeatures r2lDefaultFeatures
        u2rDefaultFeatures (bf_features_data d)).attack_type = "unknown_attack" ∧
    (aggregate_scores psDefaultFeatures dosDefaultFeatures r2lDefaultFeatures
        u2rDefaultFeatures (bf_features_data d)).confidence = 6/25 := by
  have hbf : bf_features_data d =
      ⟨d.login_attempts.length, 12, d.successful_after_failures.length,
       d.target_ports.length, true, 6/25⟩ := by
    simp only [bf_features_data, bfCascade, h]
    norm_num [min_def]
  rw [hbf]
  refine ⟨rfl, rfl, ?_, ?_, ?_⟩ <;>
    · simp only [aggregate_scores, maxAttack, firstMaxAux, Scores.values, psDefaultFeatures,
        dosDefaultFeatures, r2lDefaultFeatures, u2rDefaultFeatures]
      norm_num [List.filter, min_def, max_def]

/-- Witness for C4 at a state holding 12 failed login timestamps. -/
def bfTwelve : BFData :=
  ⟨[0, 0, 0, 0, 0, 0, 0, 0, 0, 0, 0, 0], [0, 0, 0, 0, 0, 0, 0, 0, 0, 0, 0, 0], [], [22]⟩

theorem brute_force_boundary_witness :
    (bf_features_data bfTwelve).brute_force_score = 6/25 ∧
    (bf_features_data bfTwelve).is_brute_force = true ∧
    (aggregate_scores psDefaultFeatures dosDefaultFeatures r2lDefaultFeatures
        u2rDefaultFeatures (bf_features_data bfTwelve)).is_malicious = true ∧
    (aggregate_scores psDefaultFeatures dosDefaultFeatures r2lDefaultFeatures
        u2rDefaultFeatures (bf_features_data bfTwelve)).attack_type = "unknown_attack" ∧
    (aggregate_scores psDefaultFeatures dosDefaultFeatures r2lDefaultFeatures
        u2rDefaultFeatures (bf_features_data bfTwelve)).confidence = 6/25 :=
  brute_force_boundary bfTwelve (by simp [bfTwelve])

/-! ## C1: rule-based malicious verdict always wins the arbitration -/

/-- C1 (amended): when the rule-based verdict is malicious with a non-empty,
non-normal category, the override returns exactly the rule-based category and
the label malicious, and the final binary confidence is floored by tier of the
rule-based confidence: at least 0.95 when it is ≥ 0.8, at least 0.85 when
≥ 0.6, at least 0.75 when ≥ 0.4; below 0.4 it equals
max(classifier confidence, rule-based confidence + 0.2), further floored at
0.8 when the rule-based category is unknown_attack. -/
theorem detector_override_rule_wins (ml : MLVerdict) (det : RuleVerdict)
    (hm : det.is_malicious = true) (h1 : det.attack_type ≠ "")
    (h2 : det.attack_type ≠ "normal") :
    (detector_override ml det).binary_label = "malicious" ∧
    (detector_override ml det).attack_type = det.attack_type ∧
    (4/5 ≤ det.confidence → 19/20 ≤ (detector_override ml det).binary_confidence) ∧
    (3/5 ≤ det.confidence → 17/20 ≤ (detector_override ml det).binary_confidence) ∧
    (2/5 ≤ det.confidence → 3/4 ≤ (detector_override ml det).binary_confidence) ∧
    (det.confidence < 2/5 → det.attack_type ≠ "unknown_attack" →
      (detector_override ml det).binary_confidence =
        max ml.binary_confidence (det.confidence + 1/5)) ∧
    (det.confidence < 2/5 → det.attack_type = "unknown_attack" →
      (detector_override ml det).binary_confidence =
        max (4/5) (max ml.binary_confidence (det.confidence + 1/5))) := by
  refine ⟨?_, ?_, ?_, ?_, ?_, ?_, ?_⟩
  · simp [detector_override, hm]
  · simp [detector_override, hm, h1, h2]
  · intro h
    simp only [detector_override, hm, if_true]
    split_ifs <;> (simp only [le_max_iff]; norm_num)
  · intro h
    simp only [detector_override, hm, if_true]
    split_ifs <;> (simp only [le_max_iff]; norm_num)
  · intro h
    simp only [detector_override, hm, if_true]
    split_ifs <;> (simp only [le_max_iff]; norm_num)
  · intro h hne
    simp only [detector_override, hm, if_true]
    split_ifs <;>
      first
        | rfl
        | linarith
        | simp_all
  · intro h hunk
    simp only [detector_override, hm, if_true]
    split_ifs <;>
      first
        | rfl
        | linarith
        | simp_all

/-- The concrete override input refuting the "classifier confidence + 0.2"
clause of C1: rule-based dos verdict at confidence 0.3, classifier confidence
0.5. -/
def mlHalf : MLVerdict := ⟨"benign", "normal", 1/2, 1/2⟩

def detDosLow : RuleVerdict := ⟨"dos", 3/10, true, ⟨0, 3/10, 0, 0, 0, 0⟩⟩

/-- C1 counterexample: in the below-0.4 tier the final binary confidence is
max(0.5, 0.3 + 0.2) = 0.5, not classifier confidence + 0.2 = 0.7. -/
theorem detector_override_counterexample :
    (detector_override mlHalf detDosLow).binary_confidence = 1/2 ∧
    (detector_override mlHalf detDosLow).binary_confidence ≠
      mlHalf.binary_confidence + 1/5 := by
  have hs : ("dos" : String) ≠ "unknown_attack" := by decide
  have h : (detector_override mlHalf detDosLow).binary_confidence = 1/2 := by
    simp only [detector_override, mlHalf, detDosLow, hs]
    norm_num [max_def]
  exact ⟨h, by rw [h]; simp only [mlHalf]; norm_num⟩

/-- Witness for C1 at the dos/0.9 versus normal/0.99 inputs of the spec's
rule-wins scenario. -/
def mlNormal99 : MLVerdict := ⟨"benign", "normal", 99/100, 99/100⟩

def detDos09 : RuleVerdict := ⟨"dos", 9/10, true, ⟨0, 9/10, 0, 0, 0, 0⟩⟩

theorem detector_override_rule_wins_witness :
    (detector_override mlNormal99 detDos09).binary_label = "malicious" ∧
    (detector_override mlNormal99 detDos09).attack_type = detDos09.attack_type ∧
    19/20 ≤ (detector_override mlNormal99 detDos09).binary_confidence :=
  ⟨(detector_override_rule_wins mlNormal99 detDos09 rfl (by simp [detDos09])
      (by simp [detDos09])).1,
   (detector_override_rule_wins mlNormal99 detDos09 rfl (by simp [detDos09])
      (by simp [detDos09])).2.1,
   (detector_override_rule_wins mlNormal99 detDos09 rfl (by simp [detDos09])
      (by simp [detDos09])).2.2.1 (by simp [detDos09]; norm_num)⟩

/-! ## C6: the sequential-port bonus -/

/-- A live state with three consecutive ports: every adjacent sorted pair
differs by exactly 1. -/
def c6Data : PortScanData := ⟨[2, 3, 4], [0, 0, 0], ["b"], 3, [(2, 0), (3, 0), (4, 0)]⟩

/-- C6 counterexample: with only three recorded (port, timestamp) pairs the
adjacent-difference fraction is 1 > 0.5, yet no bonus is applied and the
active flag stays false, because _check_sequential_ports returns 0 for fewer
than 5 pairs. -/
theorem sequential_bonus_counterexample :
    seqFractionCore c6Data.sequential_ports = 1 ∧
    ((1 : ℚ)/2 < 1) ∧
    (ps_features_data c6Data 0).is_port_scan = false ∧
    (ps_features_data c6Data 0).port_scan_score = 0 := by
  have hfil : List.filter (fun t => decide ((0 : ℚ) - psWindow < t)) c6Data.timestamps
      = [0, 0, 0] := by
    norm_num [c6Data, psWindow, List.filter]
  have hne : List.filter (fun t => decide ((0 : ℚ) - psWindow < t)) c6Data.timestamps ≠ [] := by
    rw [hfil]
    exact List.cons_ne_nil _ _
  refine ⟨?_, by norm_num, ?_, ?_⟩
  · simp [c6Data, seqFractionCore, sortedPorts, insertSorted, List.filter]
  · simp only [ps_features_data]
    rw [if_neg hne]
    simp only [hfil]
    norm_num [c6Data, psBase, psScoreActive, check_sequential_ports, min_def]
  · simp only [ps_features_data]
    rw [if_neg hne]
    simp only [hfil]
    norm_num [c6Data, psBase, psScoreActive, check_sequential_ports, min_def]

/-- C6 (amended): the bonus fires on the stored (write-pruned) sequential list
only when it has at least 5 entries; then a fraction above 0.5 adds 0.2 to the
base score (capped at 1) and forces the active flag, regardless of the
threshold rules, provided the source has live timestamps at all. -/
theorem sequential_bonus_amended :
    (∀ (n : Nat) (pps seq : ℚ), 1/2 < seq →
      psScoreActive n pps seq = (min 1 ((psBase n pps).1 + 1/5), true)) ∧
    (∀ pts : List (Nat × ℚ), 5 ≤ pts.length →
      check_sequential_ports pts = seqFractionCore pts) ∧
    (∀ (d : PortScanData) (now : ℚ),
      d.timestamps.filter (fun t => now - psWindow < t) ≠ [] →
      1/2 < check_sequential_ports d.sequential_ports →
      (ps_features_data d now).is_port_scan = true) := by
  refine ⟨fun n pps seq h => ?_, fun pts h5 => ?_, fun d now hr hs => ?_⟩
  · simp only [psScoreActive, if_pos h]
  · simp only [check_sequential_ports, if_neg (by omega : ¬ pts.length < 5)]
  · simp only [ps_features_data, if_neg hr, psScoreActive, if_pos hs]

/-- Five consecutive ports recorded: the bonus condition holds. -/
def c6SeqFive : PortScanData :=
  ⟨[2, 3, 4, 5, 6], [0], ["b"], 1, [(2, 0), (3, 0), (4, 0), (5, 0), (6, 0)]⟩

/-- Witness for the amended C6. -/
theorem sequential_bonus_amended_witness :
    psScoreActive 0 0 1 = (min 1 ((psBase 0 0).1 + 1/5), true) ∧
    check_sequential_ports c6SeqFive.sequential_ports =
      seqFractionCore c6SeqFive.sequential_ports ∧
    (ps_features_data c6SeqFive 0).is_port_scan = true :=
  ⟨sequential_bonus_amended.1 0 0 1 (by norm_num),
   sequential_bonus_amended.2.1 c6SeqFive.sequential_ports (by simp [c6SeqFive]),
   sequential_bonus_amended.2.2 c6SeqFive 0
     (by simp [c6SeqFive, psWindow, List.filter])
     (by simp [c6SeqFive, check_sequential_ports, seqFractionCore, sortedPorts, insertSorted]
         norm_num)⟩

/-! ## C7: monotonicity of the port-scan score in the number of ports -/

/-- The 21 even ports 2, 4, ..., 42 with two live timestamps spanning half a
second: rate 4/s, scored by the twenty-ports rule. -/
def c7Before : PortScanData :=
  ⟨[2, 4, 6, 8, 10, 12, 14, 16, 18, 20, 22, 24, 26, 28, 30, 32, 34, 36, 38, 40, 42],
   [0, 1/2], ["b"], 2, []⟩

/-- C7 counterexample: adding one more distinct port (44) at the same instant
raises the measured rate from 4/s to 6/s, switching the cascade from the
ports/200 rule (score 21/200) to the rate-weighted rule (score 33/1250), a
strictly smaller score. -/
theorem port_scan_monotonicity_counterexample :
    (ps_features_data c7Before (1/2)).port_scan_score = 21/200 ∧
    (ps_features_data (psAddData c7Before (1/2) "b" (some 44)) (1/2)).port_scan_score
      = 33/1250 ∧
    (33 : ℚ)/1250 < 21/200 := by
  refine ⟨?_, ?_, by norm_num⟩
  · have hfil : List.filter (fun t => decide ((1 : ℚ)/2 - psWindow < t)) c7Before.timestamps
        = [0, 1/2] := by
      norm_num [c7Before, psWindow, List.filter]
    have hne : List.filter (fun t => decide ((1 : ℚ)/2 - psWindow < t)) c7Before.timestamps
        ≠ [] := by
      rw [hfil]
      exact List.cons_ne_nil _ _
    simp only [ps_features_data]
    rw [if_neg hne]
    simp only [hfil]
    norm_num [c7Before, psBase, psScoreActive, check_sequential_ports, min_def]
  · have hfil : List.filter (fun t => decide ((1 : ℚ)/2 - psWindow < t))
        (psAddData c7Before (1/2) "b" (some 44)).timestamps = [0, 1/2, 1/2] := by
      norm_num [c7Before, psAddData, setAdd, setAddStr, psWindow, List.filter]
    have hne : List.filter (fun t => decide ((1 : ℚ)/2 - psWindow < t))
        (psAddData c7Before (1/2) "b" (some 44)).timestamps ≠ [] := by
      rw [hfil]
      exact List.cons_ne_nil _ _
    simp only [ps_features_data]
    rw [if_neg hne]
    simp only [hfil]
    norm_num [c7Before, psAddData, setAdd, setAddStr, psWindow, psBase, psScoreActive,
      check_sequential_ports, List.filter, min_def]

/-- The threshold cascade is monotone in the distinct-port count when the
measured packet rate is held fixed: the first two rules share the closed form
min(1, ports·rate/5000) and the third grows with ports/200. -/
theorem psBase_mono (n1 n2 : Nat) (pps : ℚ) (h : n1 ≤ n2) :
    (psBase n1 pps).1 ≤ (psBase n2 pps).1 := by
  have hc : (n1 : ℚ) ≤ (n2 : ℚ) := by exact_mod_cast h
  rcases le_or_lt pps 5 with hp | hp
  · have e1 : ∀ n : Nat, (psBase n pps).1 =
        (if 20 ≤ n then min 1 ((n : ℚ) / 200) else 0) := by
      intro n
      simp only [psBase]
      rw [if_neg (by rintro ⟨-, h5⟩; linarith), if_neg (by rintro ⟨-, h10⟩; linarith)]
      split_ifs <;> rfl
    rw [e1, e1]
    split_ifs with g1 g2
    · exact min_le_min (le_refl 1) (by linarith)
    · exact absurd (by omega : 20 ≤ n2) g2
    · exact le_min (by norm_num) (by positivity)
    · exact le_refl 0
  · have eAB : ∀ n : Nat, 5 ≤ n → (psBase n pps).1 =
        (if 10 ≤ n ∨ 10 < pps then min 1 ((n : ℚ) * pps / 5000) else 0) := by
      intro n h5
      by_cases hd : 10 ≤ n ∨ 10 < pps
      · rw [if_pos hd]
        by_cases hn : 10 ≤ n
        · simp only [psBase]
          rw [if_pos ⟨hn, hp⟩]
          congr 1
          ring
        · have hpp : 10 < pps := by
            rcases hd with hh | hh
            · omega
            · exact hh
          simp only [psBase]
          rw [if_neg (by rintro ⟨ha, -⟩; omega), if_pos ⟨h5, hpp⟩]
          congr 1
          ring
      · push_neg at hd
        rw [if_neg (by push_neg; exact hd)]
        simp only [psBase]
        rw [if_neg (by rintro ⟨ha, -⟩; omega), if_neg (by rintro ⟨-, hb⟩; linarith [hd.2]),
          if_neg (by omega)]
    rcases Nat.lt_or_ge n1 5 with h5n1 | h5n1
    · have e0 : (psBase n1 pps).1 = 0 := by
        simp only [psBase]
        rw [if_neg (by rintro ⟨ha, -⟩; omega), if_neg (by rintro ⟨hb, -⟩; omega),
          if_neg (by omega)]
      rw [e0]
      exact psBase_nonneg n2 pps
    · have hp0 : (0 : ℚ) ≤ pps := by linarith
      have hmul : (n1 : ℚ) * pps ≤ (n2 : ℚ) * pps := mul_le_mul_of_nonneg_right hc hp0
      rw [eAB n1 h5n1, eAB n2 (le_trans h5n1 h)]
      split_ifs with g1 g2 g2'
      · exact min_le_min (le_refl 1) (by linarith)
      · rcases g1 with hh | hh
        · exact (g2 (Or.inl (by omega))).elim
        · exact (g2 (Or.inr hh)).elim
      · refine le_min (by norm_num) ?_
        have h0 : (0 : ℚ) ≤ (n2 : ℚ) * pps := mul_nonneg (Nat.cast_nonneg _) hp0
        linarith
      · exact le_refl 0

/-- C7 (amended): with the measured packet rate and the sequential score both
held fixed, the port-scan score never decreases as the distinct-port count
grows; the recorded event itself can change the measured rate and lower the
score (see the counterexample). -/
theorem port_scan_score_monotone_in_ports (n1 n2 : Nat) (pps seq : ℚ) (h : n1 ≤ n2) :
    (psScoreActive n1 pps seq).1 ≤ (psScoreActive n2 pps seq).1 := by
  unfold psScoreActive
  split_ifs with hs
  · simp only
    exact min_le_min (le_refl 1) (by linarith [psBase_mono n1 n2 pps h])
  · exact psBase_mono n1 n2 pps h

/-- Witness for the amended C7. -/
theorem port_scan_score_monotone_witness :
    (3 : Nat) ≤ 25 ∧ (psScoreActive 3 2 0).1 ≤ (psScoreActive 25 2 0).1 :=
  ⟨by norm_num, port_scan_score_monotone_in_ports 3 25 2 0 (by norm_num)⟩

/-! ## C8: the packets-per-second divisor -/

/-- Two packets half a second apart. -/
def c8Data : PortScanData :=
  psAddData (psAddData PortScanData.empty 0 "b" (some 7)) (1/2) "b" none

/-- C8 counterexample: with a live span of half a second the code computes
2 / (1/2) = 4 packets per second, while the claimed max(time_span, 1s) divisor
would give 2 / 1 = 2. -/
theorem packets_per_second_counterexample :
    (ps_features_data c8Data (1/2)).packets_per_second = 4 ∧
    (2 : ℚ) / max (1/2) 1 = 2 ∧ (4 : ℚ) ≠ 2 := by
  refine ⟨?_, by norm_num [max_def], by norm_num⟩
  simp [c8Data, psAddData, PortScanData.empty, ps_features_data, psWindow, setAdd, setAddStr,
    check_sequential_ports, psScoreActive, psBase, List.filter, List.getLastD]
  norm_num

/-- C8 (amended): on live data, packets_per_second is the live event count
divided by the raw span between the last and first live timestamps, except
that a span of exactly zero is replaced by 1 (spans strictly between 0 and 1
second are used as they are, not rounded up). -/
theorem packets_per_second_amended (d : PortScanData) (now : ℚ)
    (h : d.timestamps.filter (fun t => now - psWindow < t) ≠ []) :
    (ps_features_data d now).packets_per_second =
      ((d.timestamps.filter (fun t => now - psWindow < t)).length : ℚ) /
        (if (d.timestamps.filter (fun t => now - psWindow < t)).getLastD 0 -
              (d.timestamps.filter (fun t => now - psWindow < t)).headD 0 = 0 then 1
          else (d.timestamps.filter (fun t => now - psWindow < t)).getLastD 0 -
              (d.timestamps.filter (fun t => now - psWindow < t)).headD 0) := by
  simp only [ps_features_data, if_neg h]

/-- Witness for the amended C8. -/
theorem packets_per_second_amended_witness :
    c8Data.timestamps.filter (fun t => (1 : ℚ)/2 - psWindow < t) ≠ [] ∧
    (ps_features_data c8Data (1/2)).packets_per_second =
      ((c8Data.timestamps.filter (fun t => (1 : ℚ)/2 - psWindow < t)).length : ℚ) /
        (if (c8Data.timestamps.filter (fun t => (1 : ℚ)/2 - psWindow < t)).getLastD 0 -
              (c8Data.timestamps.filter (fun t => (1 : ℚ)/2 - psWindow < t)).headD 0 = 0 then 1
          else (c8Data.timestamps.filter (fun t => (1 : ℚ)/2 - psWindow < t)).getLastD 0 -
              (c8Data.timestamps.filter (fun t => (1 : ℚ)/2 - psWindow < t)).headD 0) :=
  ⟨by simp [c8Data, psAddData, PortScanData.empty, psWindow, List.filter],
   packets_per_second_amended c8Data (1/2)
     (by simp [c8Data, psAddData, PortScanData.empty, psWindow, List.filter])⟩

/-! ## C3: lazy expiry of per-source state -/

/-- One packet with port 80 at time 0, then one portless packet at time 100,
window 60 s. -/
def c3Data : PortScanData :=
  psAddData (psAddData PortScanData.empty 0 "b" (some 80)) 100 "b" none

/-- C3 counterexample: at time 100 the only live timestamp is 100 and the
write-pruned (port, timestamp) list is empty of in-window entries, yet the
distinct-port set still counts the port recorded at time 0, 100 seconds ago
— the ports set is never expired. -/
theorem lazy_expiry_counterexample :
    (ps_features_data c3Data 100).unique_ports = 1 ∧
    List.filter (fun q => decide ((100 : ℚ) - psWindow < q.2)) c3Data.sequential_ports
      = [] ∧
    c3Data.timestamps = [100] := by
  have hts : c3Data.timestamps = [100] := by
    norm_num [c3Data, psAddData, PortScanData.empty, psWindow, List.filter]
  have hfil : List.filter (fun t => decide ((100 : ℚ) - psWindow < t)) c3Data.timestamps
      = [100] := by
    rw [hts]
    norm_num [psWindow, List.filter]
  have hne : List.filter (fun t => decide ((100 : ℚ) - psWindow < t)) c3Data.timestamps
      ≠ [] := by
    rw [hfil]
    exact List.cons_ne_nil _ _
  refine ⟨?_, ?_, hts⟩
  · simp only [ps_features_data]
    rw [if_neg hne]
    simp only [hfil]
    norm_num [c3Data, psAddData, PortScanData.empty, setAdd, setAddStr, psWindow, List.filter]
  · norm_num [c3Data, psAddData, PortScanData.empty, setAdd, setAddStr, psWindow, List.filter]

/-- C3 (amended): the timestamped lists are expired lazily — every write
prunes them to the window, and the port-scan read re-filters its timestamps,
so rate aggregates see only in-window events — but the distinct-port and
distinct-destination sets and the cumulative counters are never pruned (see
the counterexample). -/
theorem lazy_expiry_amended :
    (∀ (d : PortScanData) (now : ℚ) (dip : String) (dp : Option Nat),
      ∀ t ∈ (psAddData d now dip dp).timestamps, now - psWindow < t) ∧
    (∀ (d : PortScanData) (now : ℚ),
      ps_features_data d now =
        ps_features_data
          ⟨d.ports, d.timestamps.filter (fun t => now - psWindow < t), d.unique_dest_ips,
           d.total_packets, d.sequential_ports⟩ now) ∧
    (∀ (d : DoSData) (now : ℚ) (dip : String) (sz : Nat) (syn cf : Bool),
      ∀ q ∈ (dosAddData d now dip sz syn cf).packets, now - dosWindow < q.1) := by
  refine ⟨fun d now dip dp t ht => ?_, fun d now => ?_, fun d now dip sz syn cf q hq => ?_⟩
  · have hwin : (0 : ℚ) < psWindow := by norm_num [psWindow]
    cases dp with
    | none =>
      simp only [psAddData, List.mem_append, List.mem_filter, List.mem_singleton,
        decide_eq_true_eq] at ht
      rcases ht with ⟨-, hdec⟩ | rfl
      · exact hdec
      · linarith
    | some p =>
      simp only [psAddData, List.mem_append, List.mem_filter, List.mem_singleton,
        decide_eq_true_eq] at ht
      rcases ht with ⟨-, hdec⟩ | rfl
      · exact hdec
      · linarith
  · have hff : List.filter (fun t => decide (now - psWindow < t))
        (List.filter (fun t => decide (now - psWindow < t)) d.timestamps) =
        List.filter (fun t => decide (now - psWindow < t)) d.timestamps := by
      rw [List.filter_filter]
      congr 1
      funext a
      exact Bool.and_self _
    simp only [ps_features_data]
    rw [hff]
  · have hwin : (0 : ℚ) < dosWindow := by norm_num [dosWindow]
    simp only [dosAddData, List.mem_append, List.mem_filter, List.mem_singleton,
      decide_eq_true_eq] at hq
    rcases hq with ⟨-, hdec⟩ | rfl
    · exact hdec
    · linarith

/-- Witness for the amended C3. -/
theorem lazy_expiry_amended_witness :
    ((100 : ℚ) - psWindow < 100) ∧
    (ps_features_data c3Data 100 =
      ps_features_data
        ⟨c3Data.ports, c3Data.timestamps.filter (fun t => (100 : ℚ) - psWindow < t),
         c3Data.unique_dest_ips, c3Data.total_packets, c3Data.sequential_ports⟩ 100) ∧
    ((0 : ℚ) - dosWindow < 0) :=
  ⟨lazy_expiry_amended.1 PortScanData.empty 100 "b" none 100
     (by simp [psAddData, PortScanData.empty]),
   lazy_expiry_amended.2.1 c3Data 100,
   lazy_expiry_amended.2.2 DoSData.empty 0 "b" 5 false false (0, 1)
     (by simp [dosAddData, DoSData.empty])⟩

/-! ## C9: analyzing an event never fails to the caller -/

/-- C9: non-dict inputs return the default verdict with the state untouched;
any internal error of the analysis body (a non-numeric byte-count string is
the one uncaught-step) is converted by the outer handler into the default
verdict with the state untouched; a placeholder all-zero source address is
rejected the same way. -/
theorem analyze_packet_no_failure :
    (∀ (st : CompState) (now : ℚ),
      analyze_packet st .notDict now = (default_detection_result, st)) ∧
    (∀ (st : CompState) (p : RawPacket) (now : ℚ) (e : Unit),
      analyze_packet_core st (.dict p) now = .error e →
      analyze_packet st (.dict p) now = (default_detection_result, st)) ∧
    (∀ (st : CompState) (p : RawPacket) (now : ℚ),
      pyStrip (pyStr p.start_ip "") = "0.0.0.0" →
      analyze_packet st (.dict p) now = (default_detection_result, st)) := by
  refine ⟨fun st now => rfl, fun st p now e he => ?_, fun st p now h0 => ?_⟩
  · simp only [analyze_packet, he]
  · simp only [analyze_packet, analyze_packet_core, h0]
    simp

/-- A dict packet whose start_bytes field holds a non-numeric string: int()
raises in the source and the outer handler returns the default result. -/
def badBytesPacket : RawPacket :=
  ⟨.vStr "1.2.3.4", .vStr "5.6.7.8", .vAbsent, .vAbsent, .vStr "abc", .vAbsent⟩

/-- A dict packet carrying the all-zero placeholder source address. -/
def zeroIpPacket : RawPacket :=
  ⟨.vStr "0.0.0.0", .vStr "5.6.7.8", .vAbsent, .vAbsent, .vAbsent, .vAbsent⟩

/-- Witness for C9: the non-numeric-size packet makes the body error out and
analyze_packet still returns the default verdict unchanged, as does the
all-zero address. -/
theorem analyze_packet_no_failure_witness :
    analyze_packet CompState.init .notDict 0 = (default_detection_result, CompState.init) ∧
    analyze_packet_core CompState.init (.dict badBytesPacket) 0 = .error () ∧
    analyze_packet CompState.init (.dict badBytesPacket) 0 =
      (default_detection_result, CompState.init) ∧
    pyStrip (pyStr zeroIpPacket.start_ip "") = "0.0.0.0" ∧
    analyze_packet CompState.init (.dict zeroIpPacket) 0 =
      (default_detection_result, CompState.init) :=
  ⟨analyze_packet_no_failure.1 CompState.init 0, rfl,
   analyze_packet_no_failure.2.1 CompState.init badBytesPacket 0 () rfl, rfl,
   analyze_packet_no_failure.2.2 CompState.init zeroIpPacket 0 rfl⟩

/-! ## C10: R2L and U2R are never updated through analyze_packet -/

theorem analyze_packet_preserves_r2l_u2r (st : CompState) (pkt : PacketInput) (now : ℚ) :
    (analyze_packet st pkt now).2.r2l = st.r2l ∧
    (analyze_packet st pkt now).2.u2r = st.u2r := by
  cases pkt with
  | notDict => exact ⟨rfl, rfl⟩
  | dict p =>
    simp only [analyze_packet, analyze_packet_core]
    split_ifs with h
    · exact ⟨rfl, rfl⟩
    · cases h1 : pyIntOr0 p.start_bytes <;> cases h2 : pyIntOr0 p.end_bytes <;> simp

/-- Aggregation with default R2L and U2R features keeps them default, keeps
both scores at zero, and can never pick the category r2l or u2r. -/
theorem aggregate_scores_no_r2l_u2r (ps : PSFeatures) (dosF : DoSFeatures) (bfF : BFFeatures)
    (hp : 0 ≤ ps.port_scan_score) (hd : 0 ≤ dosF.dos_score)
    (hb : 0 ≤ bfF.brute_force_score) :
    (aggregate_scores ps dosF r2lDefaultFeatures u2rDefaultFeatures bfF).r2l_features
        = r2lDefaultFeatures ∧
    (aggregate_scores ps dosF r2lDefaultFeatures u2rDefaultFeatures bfF).u2r_features
        = u2rDefaultFeatures ∧
    (aggregate_scores ps dosF r2lDefaultFeatures u2rDefaultFeatures bfF).all_scores.r2l = 0 ∧
    (aggregate_scores ps dosF r2lDefaultFeatures u2rDefaultFeatures bfF).all_scores.u2r = 0 ∧
    (aggregate_scores ps dosF r2lDefaultFeatures u2rDefaultFeatures bfF).attack_type ≠ "r2l" ∧
    (aggregate_scores ps dosF r2lDefaultFeatures u2rDefaultFeatures bfF).attack_type
        ≠ "u2r" := by
  have hm := maxAttack_name
    ⟨ps.port_scan_score, dosF.dos_score, 0, 0, bfF.brute_force_score, 0⟩
    rfl rfl rfl hp hd hb
  simp only [aggregate_scores, r2lDefaultFeatures, u2rDefaultFeatures]
  split_ifs <;>
    refine ⟨rfl, rfl, rfl, rfl, ?_, ?_⟩ <;>
    first
      | exact (show ("unknown_attack" : String) ≠ "r2l" by decide)
      | exact (show ("unknown_attack" : String) ≠ "u2r" by decide)
      | exact (show ("normal" : String) ≠ "r2l" by decide)
      | exact (show ("normal" : String) ≠ "u2r" by decide)
      | (rcases hm with h | h | h <;> rw [h] <;>
          first
            | exact (show ("probe" : String) ≠ "r2l" by decide)
            | exact (show ("probe" : String) ≠ "u2r" by decide)
            | exact (show ("dos" : String) ≠ "r2l" by decide)
            | exact (show ("dos" : String) ≠ "u2r" by decide)
            | exact (show ("brute_force" : String) ≠ "r2l" by decide)
            | exact (show ("brute_force" : String) ≠ "u2r" by decide))

theorem analyze_packet_result_no_r2l_u2r (st : CompState) (pkt : PacketInput) (now : ℚ)
    (hr : st.r2l = []) (hu : st.u2r = []) :
    (analyze_packet st pkt now).1.r2l_features = r2lDefaultFeatures ∧
    (analyze_packet st pkt now).1.u2r_features = u2rDefaultFeatures ∧
    (analyze_packet st pkt now).1.all_scores.r2l = 0 ∧
    (analyze_packet st pkt now).1.all_scores.u2r = 0 ∧
    (analyze_packet st pkt now).1.attack_type ≠ "r2l" ∧
    (analyze_packet st pkt now).1.attack_type ≠ "u2r" := by
  have hnr : ("normal" : String) ≠ "r2l" := by decide
  have hnu : ("normal" : String) ≠ "u2r" := by decide
  cases pkt with
  | notDict =>
    exact ⟨rfl, rfl, rfl, rfl, hnr, hnu⟩
  | dict p =>
    simp only [analyze_packet, analyze_packet_core]
    split_ifs with h
    · exact ⟨rfl, rfl, rfl, rfl, hnr, hnu⟩
    · cases h1 : pyIntOr0 p.start_bytes with
      | error e => exact ⟨rfl, rfl, rfl, rfl, hnr, hnu⟩
      | ok sb =>
        cases h2 : pyIntOr0 p.end_bytes with
        | error e => exact ⟨rfl, rfl, rfl, rfl, hnr, hnu⟩
        | ok eb =>
          simp only [hr, hu]
          exact aggregate_scores_no_r2l_u2r _ _ _
            (ps_get_features_score_nonneg _ _ _)
            (dos_get_features_score_nonneg _ _ _)
            (bf_get_features_score_nonneg _ _)

/-- C10: through analyze_packet alone, starting from a fresh detector, the R2L
and U2R tracking maps stay empty forever, every returned result carries the
default R2L and U2R features (scores 0, flags false), and the aggregate
category is never r2l or u2r. -/
theorem r2l_u2r_never_updated (evs : List (PacketInput × ℚ)) :
    (run_packets CompState.init evs).1.r2l = [] ∧
    (run_packets CompState.init evs).1.u2r = [] ∧
    ∀ res ∈ (run_packets CompState.init evs).2,
      res.r2l_features = r2lDefaultFeatures ∧
      res.u2r_features = u2rDefaultFeatures ∧
      res.all_scores.r2l = 0 ∧
      res.all_scores.u2r = 0 ∧
      res.attack_type ≠ "r2l" ∧
      res.attack_type ≠ "u2r" := by
  suffices hgen : ∀ (l : List (PacketInput × ℚ)) (st : CompState),
      st.r2l = [] → st.u2r = [] →
      (run_packets st l).1.r2l = [] ∧ (run_packets st l).1.u2r = [] ∧
      ∀ res ∈ (run_packets st l).2,
        res.r2l_features = r2lDefaultFeatures ∧
        res.u2r_features = u2rDefaultFeatures ∧
        res.all_scores.r2l = 0 ∧
        res.all_scores.u2r = 0 ∧
        res.attack_type ≠ "r2l" ∧
        res.attack_type ≠ "u2r" by
    exact hgen evs CompState.init rfl rfl
  intro l
  induction l with
  | nil =>
    intro st h1 h2
    refine ⟨h1, h2, ?_⟩
    intro res hmem
    simp [run_packets] at hmem
  | cons ev rest ih =>
    intro st h1 h2
    obtain ⟨pkt, now⟩ := ev
    have hpres := analyze_packet_preserves_r2l_u2r st pkt now
    have hres := analyze_packet_result_no_r2l_u2r st pkt now h1 h2
    have hih := ih (analyze_packet st pkt now).2 (hpres.1.trans h1) (hpres.2.trans h2)
    simp only [run_packets]
    refine ⟨hih.1, hih.2.1, ?_⟩
    intro res hmem
    rcases List.mem_cons.mp hmem with hres' | hmem'
    · rw [hres']
      exact hres
    · exact hih.2.2 res hmem'

/-- Witness for C10 at a two-event stream. -/
theorem r2l_u2r_never_updated_witness :
    (run_packets CompState.init [(.notDict, 0), (.dict zeroIpPacket, 1)]).1.r2l = [] ∧
    default_detection_result.r2l_features = r2lDefaultFeatures ∧
    default_detection_result.attack_type ≠ "r2l" :=
  ⟨(r2l_u2r_never_updated [(.notDict, 0), (.dict zeroIpPacket, 1)]).1,
   ((r2l_u2r_never_updated [(.notDict, 0), (.dict zeroIpPacket, 1)]).2.2
      default_detection_result (by simp [run_packets, analyze_packet, analyze_packet_core])).1,
   ((r2l_u2r_never_updated [(.notDict, 0), (.dict zeroIpPacket, 1)]).2.2
      default_detection_result (by simp [run_packets, analyze_packet, analyze_packet_core])).2.2.2.2.1⟩

/-! ## C2: the arbitration probability distribution -/

theorem mapSet_nonneg {m : List (String × ℚ)} {k : String} {v : ℚ}
    (hm : ∀ kv ∈ m, 0 ≤ kv.2) (hv : 0 ≤ v) : ∀ kv ∈ mapSet m k v, 0 ≤ kv.2 := by
  intro kv hkv
  rcases mem_mapSet m k v kv hkv with h | h
  · rw [h]; exact hv
  · exact hm kv h

theorem clip_div (s T : ℚ) (hT : 0 < T) (hsT : max 0 s ≤ T) :
    max 0 (min 1 (s / T)) = max 0 s / T := by
  rcases le_or_lt s 0 with hs | hs
  · have hdiv : s / T ≤ 0 := by
      rw [div_nonpos_iff]
      right
      exact ⟨hs, hT.le⟩
    rw [max_eq_left hs, zero_div, min_eq_right (le_trans hdiv (by norm_num)),
      max_eq_left hdiv]
  · have hsT2 : s ≤ T := le_trans (le_max_right 0 s) hsT
    have hdiv1 : s / T ≤ 1 := (div_le_one hT).mpr hsT2
    have hdiv0 : 0 ≤ s / T := div_nonneg hs.le hT.le
    rw [min_eq_right hdiv1, max_eq_right hdiv0, max_eq_right hs.le]

theorem rule_based_probs_base_nonneg (det : RuleVerdict) :
    ∀ kv ∈ rule_based_probs_base det, 0 ≤ kv.2 := by
  unfold rule_based_probs_base
  split_ifs with hT
  · intro kv hkv
    obtain ⟨k, -, rfl⟩ := List.mem_map.mp hkv
    exact le_max_left _ _
  · refine foldl_preserve (fun m : List (String × ℚ) => ∀ kv ∈ m, 0 ≤ kv.2) _ ?_ attack_names _ ?_
    · intro m k hm
      by_cases hmem : pdictMem m k = true
      · rw [if_pos hmem]
        exact hm
      · rw [if_neg hmem]
        exact mapSet_nonneg hm le_rfl
    · exact mapSet_nonneg (by simp) (le_trans (by norm_num) (le_max_left _ _))

theorem rule_based_probs_base_mem_of_total_nonpos (det : RuleVerdict)
    (hT : ¬ 0 < clippedTotal det) :
    pdictMem (rule_based_probs_base det) det.attack_type = true := by
  unfold rule_based_probs_base
  rw [if_neg hT]
  refine foldl_preserve (fun m => pdictMem m det.attack_type = true) _ ?_ attack_names _ ?_
  · intro m k hm
    by_cases hmem : pdictMem m k = true
    · rw [if_pos hmem]
      exact hm
    · rw [if_neg hmem]
      exact pdictMem_mapSet_mono m det.attack_type k 0 hm
  · exact pdictMem_mapSet_self [] det.attack_type _

theorem rule_based_probs_base_ne_nil (det : RuleVerdict) :
    rule_based_probs_base det ≠ [] := by
  unfold rule_based_probs_base
  split_ifs with hT
  · simp [attack_names]
  · refine foldl_preserve (fun m => m ≠ []) _ ?_ attack_names _ ?_
    · intro m k hm
      by_cases hmem : pdictMem m k = true
      · rw [if_pos hmem]
        exact hm
      · rw [if_neg hmem]
        exact mapSet_ne_nil m k 0
    · exact mapSet_ne_nil [] _ _

theorem rule_based_probs_base_sum_one (det : RuleVerdict) (hT : 0 < clippedTotal det) :
    pdictSum (rule_based_probs_base det) = 1 := by
  have hTdef : clippedTotal det =
      max 0 det.all_scores.probe + max 0 det.all_scores.dos + max 0 det.all_scores.r2l +
      max 0 det.all_scores.u2r + max 0 det.all_scores.brute_force +
      max 0 det.all_scores.normal := by
    simp [clippedTotal, Scores.values]
    ring
  have hb : ∀ x : ℚ,
      x = det.all_scores.probe ∨ x = det.all_scores.dos ∨ x = det.all_scores.r2l ∨
      x = det.all_scores.u2r ∨ x = det.all_scores.brute_force ∨ x = det.all_scores.normal →
      max 0 x ≤ clippedTotal det := by
    have h1 : (0:ℚ) ≤ max 0 det.all_scores.probe := le_max_left _ _
    have h2 : (0:ℚ) ≤ max 0 det.all_scores.dos := le_max_left _ _
    have h3 : (0:ℚ) ≤ max 0 det.all_scores.r2l := le_max_left _ _
    have h4 : (0:ℚ) ≤ max 0 det.all_scores.u2r := le_max_left _ _
    have h5 : (0:ℚ) ≤ max 0 det.all_scores.brute_force := le_max_left _ _
    have h6 : (0:ℚ) ≤ max 0 det.all_scores.normal := le_max_left _ _
    rintro x (rfl | rfl | rfl | rfl | rfl | rfl) <;> rw [hTdef] <;> linarith
  have hgn : det.all_scores.get "normal" = det.all_scores.normal := by simp [Scores.get]
  have hgd : det.all_scores.get "dos" = det.all_scores.dos := by simp [Scores.get]
  have hgp : det.all_scores.get "probe" = det.all_scores.probe := by simp [Scores.get]
  have hgr : det.all_scores.get "r2l" = det.all_scores.r2l := by simp [Scores.get]
  have hgu : det.all_scores.get "u2r" = det.all_scores.u2r := by simp [Scores.get]
  have hgb : det.all_scores.get "brute_force" = det.all_scores.brute_force := by
    simp [Scores.get]
  unfold rule_based_probs_base
  rw [if_pos hT]
  simp only [attack_names, List.map_cons, List.map_nil, pdictSum, List.sum_cons, List.sum_nil,
    hgn, hgd, hgp, hgr, hgu, hgb, add_zero]
  rw [clip_div _ _ hT (hb _ (by tauto)), clip_div _ _ hT (hb _ (by tauto)),
    clip_div _ _ hT (hb _ (by tauto)), clip_div _ _ hT (hb _ (by tauto)),
    clip_div _ _ hT (hb _ (by tauto)), clip_div _ _ hT (hb _ (by tauto))]
  have hTne : clippedTotal det ≠ 0 := ne_of_gt hT
  field_simp
  linarith [hTdef]

theorem rule_based_probs_nonneg (det : RuleVerdict) :
    ∀ kv ∈ rule_based_probs det, 0 ≤ kv.2 := by
  simp only [rule_based_probs]
  split_ifs with hmem
  · intro kv hkv
    rcases mem_mapSet _ _ _ kv hkv with hv | hv
    · rw [hv]
      exact le_trans (pdictGet_nonneg _ _ (rule_based_probs_base_nonneg det))
        (le_max_left _ _)
    · exact rule_based_probs_base_nonneg det kv hv
  · exact rule_based_probs_base_nonneg det

theorem rule_based_probs_ne_nil (det : RuleVerdict) : rule_based_probs det ≠ [] := by
  simp only [rule_based_probs]
  split_ifs with hmem
  · exact mapSet_ne_nil _ _ _
  · exact rule_based_probs_base_ne_nil det

theorem boostKnown_nonneg (det : RuleVerdict) (probs : List (String × ℚ))
    (h : ∀ kv ∈ probs, 0 ≤ kv.2) : ∀ kv ∈ boostKnown det probs, 0 ≤ kv.2 := by
  unfold boostKnown
  apply normalizeProbs_nonneg
  refine foldl_preserve (fun m : List (String × ℚ) => ∀ kv ∈ m, 0 ≤ kv.2) _ ?_ attack_only_names _ ?_
  · intro m k hm
    by_cases hc : k ≠ det.attack_type ∧ pdictMem m k = true
    · rw [if_pos hc]
      exact mapSet_nonneg hm (mul_nonneg (pdictGet_nonneg _ _ hm) (by norm_num))
    · rw [if_neg hc]
      exact hm
  · have h1 : ∀ kv ∈ mapSet probs det.attack_type
        (max (max (pdictGet probs det.attack_type) det.confidence)
          (min (19/20) (det.confidence + 1/5))), 0 ≤ kv.2 :=
      mapSet_nonneg h (le_trans (pdictGet_nonneg _ _ h)
        (le_trans (le_max_left _ _) (le_max_left _ _)))
    split_ifs with hn h7 h5 <;>
      first
        | exact h1
        | exact mapSet_nonneg h1 (le_max_left _ _)

theorem boostKnown_sum_one (det : RuleVerdict) (probs : List (String × ℚ))
    (hne : probs ≠ []) : pdictSum (boostKnown det probs) = 1 := by
  unfold boostKnown
  apply normalizeProbs_sum
  refine foldl_preserve (fun m => m ≠ []) _ ?_ attack_only_names _ ?_
  · intro m k hm
    by_cases hc : k ≠ det.attack_type ∧ pdictMem m k = true
    · rw [if_pos hc]
      exact mapSet_ne_nil _ _ _
    · rw [if_neg hc]
      exact hm
  · split_ifs with hn h7 h5 <;> exact mapSet_ne_nil _ _ _

theorem boostUnknown_nonneg (det : RuleVerdict) (probs : List (String × ℚ))
    (h : ∀ kv ∈ probs, 0 ≤ kv.2) : ∀ kv ∈ boostUnknown det probs, 0 ≤ kv.2 := by
  unfold boostUnknown
  apply normalizeProbs_nonneg
  have h1 : ∀ kv ∈ attack_only_names.foldl
      (fun m k => mapSet m k (max (max (pdictGet m k) (det.confidence / 5))
        (min (2/5) (det.confidence / 5 + 1/10)))) probs, 0 ≤ kv.2 := by
    refine foldl_preserve (fun m : List (String × ℚ) => ∀ kv ∈ m, 0 ≤ kv.2) _ ?_ attack_only_names _ h
    intro m k hm
    exact mapSet_nonneg hm
      (le_trans (pdictGet_nonneg _ _ hm) (le_trans (le_max_left _ _) (le_max_left _ _)))
  split_ifs with hn
  · exact mapSet_nonneg h1 (le_max_left _ _)
  · exact h1

theorem boostUnknown_sum_one (det : RuleVerdict) (probs : List (String × ℚ))
    (hne : probs ≠ []) : pdictSum (boostUnknown det probs) = 1 := by
  unfold boostUnknown
  apply normalizeProbs_sum
  have h1 : attack_only_names.foldl
      (fun m k => mapSet m k (max (max (pdictGet m k) (det.confidence / 5))
        (min (2/5) (det.confidence / 5 + 1/10)))) probs ≠ [] := by
    refine foldl_preserve (fun m => m ≠ []) _ ?_ attack_only_names _ hne
    intro m k hm
    exact mapSet_ne_nil _ _ _
  split_ifs with hn
  · exact mapSet_ne_nil _ _ _
  · exact h1

theorem arbitrate_probs_nonneg (det : RuleVerdict) :
    ∀ kv ∈ arbitrate_probs det, 0 ≤ kv.2 := by
  unfold arbitrate_probs boost_probs
  split_ifs with hmal hmem hunk
  · exact rule_based_probs_nonneg det
  · exact boostKnown_nonneg det _ (rule_based_probs_nonneg det)
  · exact boostUnknown_nonneg det _ (rule_based_probs_nonneg det)
  · exact rule_based_probs_nonneg det

theorem arbitrate_probs_malicious_sum (det : RuleVerdict)
    (hmal : det.is_malicious = true) : pdictSum (arbitrate_probs det) = 1 := by
  unfold arbitrate_probs boost_probs
  rw [hmal]
  rw [if_neg (show ¬ (true = false) by decide)]
  split_ifs with hmem hunk
  · exact boostKnown_sum_one det _ (rule_based_probs_ne_nil det)
  · exact boostUnknown_sum_one det _ (rule_based_probs_ne_nil det)
  · by_cases hb : pdictMem (rule_based_probs_base det) det.attack_type = true
    · exfalso
      apply hmem
      simp only [rule_based_probs]
      rw [if_pos hb]
      exact pdictMem_mapSet_self _ _ _
    · have hbase : rule_based_probs det = rule_based_probs_base det := by
        simp only [rule_based_probs]
        rw [if_neg hb]
      rw [hbase]
      by_cases hT : 0 < clippedTotal det
      · exact rule_based_probs_base_sum_one det hT
      · exact absurd (rule_based_probs_base_mem_of_total_nonpos det hT) hb

/-- Non-malicious rule-based verdict: detected type "normal" with confidence
0.25 and a single positive probe score 0.25. -/
def c2Det : RuleVerdict := ⟨"normal", 1/4, false, ⟨1/4, 0, 0, 0, 0, 0⟩⟩

/-- C2 counterexample: on the rule-based-only path with a non-malicious
verdict the final "ensure detected type" raise (lines 861-863) runs after the
normalization, so the returned dict sums to 5/4, not 1 within 1e-6: the probe
entry is 0.25/0.25 = 1 and the normal entry is then raised to 0.25. -/
theorem arbitrate_probs_counterexample :
    pdictSum (arbitrate_probs c2Det) = 5/4 ∧
    ¬ |pdictSum (arbitrate_probs c2Det) - 1| ≤ 1/1000000 := by
  have h : pdictSum (arbitrate_probs c2Det) = 5/4 := by
    simp [arbitrate_probs, boost_probs, rule_based_probs, rule_based_probs_base, clippedTotal,
      c2Det, attack_names, attack_only_names, Scores.values, Scores.get, pdictSum, pdictMem,
      pdictGet, mapSet, mapFind, normalizeProbs, min_def, max_def]
    norm_num
  refine ⟨h, ?_⟩
  rw [h, show (5/4 : ℚ) - 1 = 1/4 by norm_num,
    abs_of_nonneg (show (0:ℚ) ≤ 1/4 by norm_num)]
  norm_num

/-- C2 (amended): every entry of the returned per-category dict is
non-negative (and every ℚ is finite), and whenever the rule-based verdict is
malicious the dict sums to exactly 1; when the verdict is not malicious the
final raise of the detected type's entry can push the sum above 1. -/
theorem arbitrate_probs_distribution (det : RuleVerdict) :
    (∀ kv ∈ arbitrate_probs det, 0 ≤ kv.2) ∧
    (det.is_malicious = true → pdictSum (arbitrate_probs det) = 1) :=
  ⟨arbitrate_probs_nonneg det, fun hmal => arbitrate_probs_malicious_sum det hmal⟩

/-- Malicious rule-based verdict: detected type "dos" with confidence 0.9,
probe score 0.25 and dos score 0.5. -/
def c2MalDet : RuleVerdict := ⟨"dos", 9/10, true, ⟨1/4, 1/2, 0, 0, 0, 0⟩⟩

theorem arbitrate_probs_distribution_witness :
    (0:ℚ) ≤ ((("probe" : String), (1:ℚ))).2 ∧ pdictSum (arbitrate_probs c2MalDet) = 1 :=
  ⟨(arbitrate_probs_distribution c2Det).1 ("probe", 1)
      (by simp [arbitrate_probs, boost_probs, rule_based_probs, rule_based_probs_base,
        clippedTotal, c2Det, attack_names, attack_only_names, Scores.values, Scores.get,
        pdictMem, pdictGet, mapSet, mapFind, min_def, max_def]),
   (arbitrate_probs_distribution c2MalDet).2 rfl⟩

end IDS
